import Mathlib

/-!
# serviceconfig: layered resolution of a service configuration

A shallow embedding of `serviceconfig.go` and `constants.go`.

* Go strings are modelled as Lean `String`s (sequences of Unicode scalar values).
* A `panic` is modelled as the `.error` branch of `Except String`.
* Everything the Go code obtains from outside the package (process
  environment, file system, the `encoding/json` and `yaml.v3` decoders, the
  non-ASCII part of the Unicode case tables) is a field of `World`.
* `uint32` fields are natural numbers; the conversion `uint32(n)` is
  `n % 2 ^ 32`.
-/

namespace serviceconfig

/-! ## Regular expressions (the fragment of RE2 used by `isValidPort`) -/

/-- Syntax of the regular expressions occurring in the package. -/
inductive Regexp where
  /-- Pattern `^`: beginning of text -/
  | bol : Regexp
  /-- Pattern `$`: end of text -/
  | eol : Regexp
  /-- the empty expression -/
  | eps : Regexp
  /-- a literal character -/
  | lit : Char → Regexp
  /-- a character class `[lo-hi]` -/
  | cls : Char → Char → Regexp
  /-- concatenation -/
  | cat : Regexp → Regexp → Regexp
  /-- alternation `a|b` -/
  | alt : Regexp → Regexp → Regexp

namespace Regexp

/-- Pattern `r{n}`: exactly `n` copies of `r`. -/
def rep (r : Regexp) : Nat → Regexp
  | 0 => eps
  | n + 1 => cat r (rep r n)

/-- At most `n` copies of `r`, written `(r(r(...)?)?)?`. -/
def upTo (r : Regexp) : Nat → Regexp
  | 0 => eps
  | n + 1 => alt (cat r (upTo r n)) eps

/-- Pattern `r{lo,hi}`: between `lo` and `hi` copies of `r`. -/
def repRange (r : Regexp) (lo hi : Nat) : Regexp :=
  cat (rep r lo) (upTo r (hi - lo))

/-- Backtracking matcher in continuation-passing style: `run r pos s k` tries to
match `r` at offset `pos` of the text, `s` being the rest of the text from that
offset on, and hands the offset and rest after the match to `k`. -/
def run : Regexp → Nat → List Char → (Nat → List Char → Bool) → Bool
  | bol, pos, s, k => pos == 0 && k pos s
  | eol, pos, s, k => s.isEmpty && k pos s
  | eps, pos, s, k => k pos s
  | lit c, pos, s, k =>
    match s with
    | [] => false
    | d :: t => d == c && k (pos + 1) t
  | cls lo hi, pos, s, k =>
    match s with
    | [] => false
    | d :: t => (decide (lo.toNat ≤ d.toNat) && decide (d.toNat ≤ hi.toNat)) && k (pos + 1) t
  | cat a b, pos, s, k => run a pos s (fun pos' s' => run b pos' s' k)
  | alt a b, pos, s, k => run a pos s k || run b pos s k

/-- Does a match of `r` start at offset `pos` or later? -/
def search (r : Regexp) : Nat → List Char → Bool
  | pos, [] => run r pos [] (fun _ _ => true)
  | pos, c :: cs => run r pos (c :: cs) (fun _ _ => true) || search r (pos + 1) cs

end Regexp

/-- Go `regexp.MatchString`: does the text contain any match of the expression? -/
def MatchString (pattern : Regexp) (s : String) : Bool :=
  pattern.search 0 s.data

open Regexp in
/-- The pattern of `isValidPort`:
`^(^$|[0-9]{1,4}|[1-5][0-9]{4}|6[0-4][0-9]{3}|65[0-4][0-9]{2}|655[0-2][0-9]|6553[0-5])$` -/
def portPattern : Regexp :=
  cat bol (cat
    (alt (cat bol eol)
    (alt (repRange (cls '0' '9') 1 4)
    (alt (cat (cls '1' '5') (rep (cls '0' '9') 4))
    (alt (cat (lit '6') (cat (cls '0' '4') (rep (cls '0' '9') 3)))
    (alt (cat (lit '6') (cat (lit '5') (cat (cls '0' '4') (rep (cls '0' '9') 2))))
    (alt (cat (lit '6') (cat (lit '5') (cat (lit '5') (cat (cls '0' '2') (cls '0' '9')))))
         (cat (lit '6') (cat (lit '5') (cat (lit '5') (cat (lit '3') (cls '0' '5')))))))))))
    eol)

/-- Go `isValidPort`: the port string matches `portPattern`. -/
def isValidPort (port : String) : Bool :=
  MatchString portPattern port

/-- A decimal string: only the digits `0`-`9` (possibly no character at all). -/
def isDecimal (s : String) : Bool :=
  s.data.all Char.isDigit

/-- The number denoted by a list of decimal digits. -/
def digitsValue (ds : List Char) : Nat :=
  ds.foldl (fun n c => 10 * n + (c.toNat - 48)) 0

/-- The integer value of a decimal string. -/
def decimalValue (s : String) : Nat :=
  digitsValue s.data

/-! ## Data model -/

/-- Go `DatabaseConfig` is a structure to store all the database config. -/
structure DatabaseConfig where
  HostAddress : String := ""
  Port : String := ""
  Name : String := ""
  User : String := ""
  Password : String := ""
  deriving DecidableEq, Repr

/-- Go `HTTPServer` include host and port when run a service. -/
structure HTTPServer where
  BaseURL : String := ""
  Host : String := ""
  Port : String := ""
  deriving DecidableEq, Repr

/-- Go `RedisConfig` include host and port to a single redis instance usage. -/
structure RedisConfig where
  Host : String := ""
  Port : String := ""
  deriving DecidableEq, Repr

/-- Go `AuthConfig` include config for an authentication service; the three
durations are `uint32` in the source. -/
structure AuthConfig where
  PrivateKey : String := ""
  PublicKey : String := ""
  AccessTokenExpirationMillis : Nat := 0
  RefreshTokenExpirationMillis : Nat := 0
  CleanUpSessionMillis : Nat := 0
  deriving DecidableEq, Repr

/-- Go `LoggerConfig`. -/
structure LoggerConfig where
  ConfigPath : String := ""
  deriving DecidableEq, Repr

/-- Go `MailServiceKey` include related information if want to use a provided mail service. -/
structure MailServiceKey where
  ApiKey : String := ""
  deriving DecidableEq, Repr

/-- The unexported record `serviceConfig`. -/
structure serviceConfig where
  Database : DatabaseConfig := {}
  HTTP : HTTPServer := {}
  Redis : RedisConfig := {}
  Auth : AuthConfig := {}
  MailService : MailServiceKey := {}
  Env : String := ""
  Logger : LoggerConfig := {}
  deriving DecidableEq, Repr

/-- Go `ServiceConfig` is the structure to hold all the configs related to a common golang service. -/
structure ServiceConfig where
  data : serviceConfig := {}
  deriving DecidableEq, Repr

/-! ## The outside world -/

/-- Outcome of `os.Stat` on a path. -/
inductive StatResult where
  /-- Go `err == nil` -/
  | ok : StatResult
  /-- Go `os.IsNotExist(err)` -/
  | notExist : StatResult
  /-- any other error -/
  | otherError : StatResult
  deriving DecidableEq, Repr

/-- What `json.Unmarshal` / `yaml.Unmarshal` leave behind: the target record after
the call (it is written in place, also when the call fails) and whether the
returned `err` is non-nil. -/
structure Unmarshalled where
  data : serviceConfig
  err : Bool

/-- A decoder: the bytes and the record decoded into. -/
abbrev Unmarshal := List UInt8 → serviceConfig → Unmarshalled

/-- Everything the package reads from outside itself. -/
structure World where
  /-- the process environment; `none` for a variable that is not set -/
  environ : String → Option String
  /-- Go `os.Stat` -/
  stat : String → StatResult
  /-- Go `ioutil.ReadFile`; `none` when it returns an error -/
  readFile : String → Option (List UInt8)
  /-- Go `json.Unmarshal` into the record -/
  jsonUnmarshal : Unmarshal
  /-- Go `yaml.Unmarshal` into the record -/
  yamlUnmarshal : Unmarshal
  /-- Go `unicode.ToLower` on the characters outside ASCII -/
  unicodeToLower : Char → Char

/-- Go `os.Getenv`: the value of the variable, empty when it is not set. -/
def Getenv (w : World) (key : String) : String :=
  (w.environ key).getD ""

/-- Go `unicode.ToLower` on one character. -/
def toLowerRune (w : World) (c : Char) : Char :=
  if c.toNat < 128 then c.toLower else w.unicodeToLower c

/-- Go `strings.ToLower`. -/
def ToLower (w : World) (s : String) : String :=
  ⟨s.data.map (toLowerRune w)⟩

/-- Go `strconv.Atoi` with a 64-bit `int`: the value returned and whether `err` is
non-nil. The text is an optional sign followed by at least one decimal digit;
anything else gives `0` with a syntax error, and a value outside the `int64`
range gives the nearest bound with a range error. -/
def Atoi (s : String) : Int × Bool :=
  let signed : Bool × List Char :=
    match s.data with
    | '-' :: t => (true, t)
    | '+' :: t => (false, t)
    | l => (false, l)
  let ds := signed.2
  if ds.isEmpty || !ds.all Char.isDigit then (0, true)
  else
    let n := digitsValue ds
    if signed.1 then
      if 2 ^ 63 < n then (-(2 ^ 63 : Int), true) else (-(n : Int), false)
    else
      if 2 ^ 63 ≤ n then ((2 ^ 63 : Int) - 1, true) else ((n : Int), false)

/-- The conversion `uint32(n)` of an `int`. -/
def toUint32 (n : Int) : Nat :=
  (n % 2 ^ 32).toNat

/-- Go `strings.Split(s, sep)` for a one-character separator. -/
def Split (s : String) (sep : Char) : List String :=
  (s.data.splitOn sep).map String.mk

/-- Go `path.Join(dir, file)` for the two-element joins of the package, on which
`path.Clean` changes nothing. -/
def pathJoin (dir file : String) : String :=
  dir ++ "/" ++ file

/-! ## Constants (`constants.go`) -/

def serviceConfigPath : String := "service_config_path"
def defaultConfigPath : String := "service"
def localhostConfigPath : String := "localhost_service_config_path"
def localhostDefaultConfigPath : String := "localhost_service"

def envServiceName : String := "SERVICE_NAME"
def envEnv : String := "ENV"
def envPort : String := "PORT"
def envRedisHost : String := "REDIS_HOST"
def envRedisPort : String := "REDIS_PORT"
def envLoginPrivateKey : String := "LOGIN_PRIVATE_KEY"
def envLoginPublicKey : String := "LOGIN_PUBLIC_KEY"
def envAccessTokenExpiration : String := "ACCESS_TOKEN_EXPIRATION_MILLIS"
def envRefreshTokenExpiration : String := "REFRESH_TOKEN_EXPIRATION_MILLIS"
def envDBHost : String := "DB_HOST"
def envDBPort : String := "DB_PORT"
def envDBUsername : String := "DB_USERNAME"
def envDBPassword : String := "DB_PASSWORD"

/-! ## Accessors -/

def ServiceConfig.GetDataBaseConfig (s : ServiceConfig) : DatabaseConfig := s.data.Database
def ServiceConfig.GetAuthConfig (s : ServiceConfig) : AuthConfig := s.data.Auth
def ServiceConfig.GetRedisConfig (s : ServiceConfig) : RedisConfig := s.data.Redis
def ServiceConfig.GetMailServiceConfig (s : ServiceConfig) : MailServiceKey := s.data.MailService
def ServiceConfig.GetServerPort (s : ServiceConfig) : String := s.data.HTTP.Port
def ServiceConfig.GetEnv (s : ServiceConfig) : String := s.data.Env
def ServiceConfig.GetLoggerConfigPath (s : ServiceConfig) : String := s.data.Logger.ConfigPath

/-! ## `parseEnv`

The body of `parseEnv` is a sequence of twelve guarded assignments; each is one
definition here, named after the local variable of the source, and `parseEnv`
runs them in source order. -/

/-- Step `env := strings.ToLower(os.Getenv(envEnv))` and its guarded assignment. -/
def parseEnv.env (w : World) (s : ServiceConfig) : ServiceConfig :=
  let env := ToLower w (Getenv w envEnv)
  if env ≠ "" then { s with data.Env := env } else s

/-- Step `serverPort := os.Getenv(envPort)` and its guarded assignment. -/
def parseEnv.serverPort (w : World) (s : ServiceConfig) : ServiceConfig :=
  let serverPort := Getenv w envPort
  if serverPort ≠ "" then { s with data.HTTP.Port := serverPort } else s

/-- Step `redisHost := os.Getenv(envRedisHost)` and its guarded assignment. -/
def parseEnv.redisHost (w : World) (s : ServiceConfig) : ServiceConfig :=
  let redisHost := Getenv w envRedisHost
  if redisHost ≠ "" then { s with data.Redis.Host := redisHost } else s

/-- Step `redisPort := os.Getenv(envRedisPort)` and its guarded assignment. -/
def parseEnv.redisPort (w : World) (s : ServiceConfig) : ServiceConfig :=
  let redisPort := Getenv w envRedisPort
  if redisPort ≠ "" then { s with data.Redis.Port := redisPort } else s

/-- Step `dbHost := os.Getenv(envDBHost)` and its guarded assignment. -/
def parseEnv.dbHost (w : World) (s : ServiceConfig) : ServiceConfig :=
  let dbHost := Getenv w envDBHost
  if dbHost ≠ "" then { s with data.Database.HostAddress := dbHost } else s

/-- Step `dbPort := os.Getenv(envDBPort)` and its guarded assignment. -/
def parseEnv.dbPort (w : World) (s : ServiceConfig) : ServiceConfig :=
  let dbPort := Getenv w envDBPort
  if dbPort ≠ "" then { s with data.Database.Port := dbPort } else s

/-- Step `dbUsername := os.Getenv(envDBUsername)` and its guarded assignment. -/
def parseEnv.dbUsername (w : World) (s : ServiceConfig) : ServiceConfig :=
  let dbUsername := Getenv w envDBUsername
  if dbUsername ≠ "" then { s with data.Database.User := dbUsername } else s

/-- Step `dbPassword := os.Getenv(envDBPassword)` and its guarded assignment. -/
def parseEnv.dbPassword (w : World) (s : ServiceConfig) : ServiceConfig :=
  let dbPassword := Getenv w envDBPassword
  if dbPassword ≠ "" then { s with data.Database.Password := dbPassword } else s

/-- Step `privateKey := os.Getenv(envLoginPrivateKey)` and its guarded assignment. -/
def parseEnv.privateKey (w : World) (s : ServiceConfig) : ServiceConfig :=
  let privateKey := Getenv w envLoginPrivateKey
  if privateKey ≠ "" then { s with data.Auth.PrivateKey := privateKey } else s

/-- Step `publicKey := os.Getenv(envLoginPublicKey)` and its guarded assignment. -/
def parseEnv.publicKey (w : World) (s : ServiceConfig) : ServiceConfig :=
  let publicKey := Getenv w envLoginPublicKey
  if publicKey ≠ "" then { s with data.Auth.PublicKey := publicKey } else s

/-- Step `accessTokenExpiration := os.Getenv(envAccessTokenExpiration)`; when it is not
empty, `expiryTime, _ := strconv.Atoi(..)` and, when `expiryTime != 0`, the field
becomes `uint32(expiryTime)`. -/
def parseEnv.accessTokenExpiration (w : World) (s : ServiceConfig) : ServiceConfig :=
  let accessTokenExpiration := Getenv w envAccessTokenExpiration
  if accessTokenExpiration ≠ "" then
    let expiryTime := (Atoi accessTokenExpiration).1
    if expiryTime ≠ 0 then
      { s with data.Auth.AccessTokenExpirationMillis := toUint32 expiryTime }
    else s
  else s

/-- The same for `refreshTokenExpiration`. -/
def parseEnv.refreshTokenExpiration (w : World) (s : ServiceConfig) : ServiceConfig :=
  let refreshTokenExpiration := Getenv w envRefreshTokenExpiration
  if refreshTokenExpiration ≠ "" then
    let expiryTime := (Atoi refreshTokenExpiration).1
    if expiryTime ≠ 0 then
      { s with data.Auth.RefreshTokenExpirationMillis := toUint32 expiryTime }
    else s
  else s

/-- Go `parseEnv`: the environment overlay. -/
def parseEnv (w : World) (s : ServiceConfig) : ServiceConfig :=
  s |> parseEnv.env w
    |> parseEnv.serverPort w
    |> parseEnv.redisHost w
    |> parseEnv.redisPort w
    |> parseEnv.dbHost w
    |> parseEnv.dbPort w
    |> parseEnv.dbUsername w
    |> parseEnv.dbPassword w
    |> parseEnv.privateKey w
    |> parseEnv.publicKey w
    |> parseEnv.accessTokenExpiration w
    |> parseEnv.refreshTokenExpiration w

/-! ## Locating and decoding the files -/

/-- Go `checkFileExist`: true exactly when `os.Stat` returns no error. -/
def checkFileExist (w : World) (filePath : String) : Bool :=
  match w.stat filePath with
  | .ok => true
  | .notExist => false
  | .otherError => false

/-- Go `getDefaultServiceConfigPath`: the first of the three default paths that exists. -/
def getDefaultServiceConfigPath (w : World) (fileName : String) : String :=
  let paths := [
    pathJoin "etc" (fileName ++ ".json"),
    pathJoin "etc" (fileName ++ ".yaml"),
    pathJoin "etc" (fileName ++ ".yml")]
  (paths.find? (checkFileExist w)).getD ""

/-- Go `getServiceConfigPath`. -/
def getServiceConfigPath (w : World) : String :=
  let serviceConfigPath := Getenv w serviceConfigPath
  if serviceConfigPath ≠ "" then serviceConfigPath
  else getDefaultServiceConfigPath w defaultConfigPath

/-- Go `getLocalhostConfigPath`. -/
def getLocalhostConfigPath (w : World) : String :=
  let localhostConfigPath := Getenv w localhostConfigPath
  if localhostConfigPath ≠ "" then localhostConfigPath
  else getDefaultServiceConfigPath w localhostDefaultConfigPath

/-- Go `getSuffix`: the last element of `strings.Split(configPath, ".")`; the index
expression `arr[len(arr)-1]` panics when it is out of range. -/
def getSuffix (configPath : String) : Except String String :=
  let arr := Split configPath '.'
  match arr[arr.length - 1]? with
  | some suffix => .ok suffix
  | none => .error "index out of range"

/-- Go `parseYAML`. -/
def parseYAML (w : World) (data : List UInt8) (serviceConfig : ServiceConfig) :
    Except String ServiceConfig :=
  let r := w.yamlUnmarshal data serviceConfig.data
  let serviceConfig : ServiceConfig := { serviceConfig with data := r.data }
  let serverPort := serviceConfig.data.HTTP.Port
  if !isValidPort serverPort then .error "invalid port number"
  else if r.err then .error "can not parse yaml-yml service config file"
  else .ok serviceConfig

/-- Go `parseJSON`. -/
def parseJSON (w : World) (data : List UInt8) (serviceConfig : ServiceConfig) :
    Except String ServiceConfig :=
  let r := w.jsonUnmarshal data serviceConfig.data
  let serviceConfig : ServiceConfig := { serviceConfig with data := r.data }
  let serverPort := serviceConfig.data.HTTP.Port
  if !isValidPort serverPort then .error "invalid port number"
  else if r.err then .error "can not parse json service config file"
  else .ok serviceConfig

/-- Go `parseServiceConfig`. -/
def parseServiceConfig (w : World) (configPath : String) (serviceConfig : ServiceConfig) :
    Except String ServiceConfig :=
  match w.readFile configPath with
  | none => .ok serviceConfig
  | some data =>
    match getSuffix configPath with
    | .error e => .error e
    | .ok suffix =>
      if suffix = "json" then parseJSON w data serviceConfig
      else if suffix = "yaml" ∨ suffix = "yml" then parseYAML w data serviceConfig
      else .ok serviceConfig

/-- Go `initServiceDefaultConfigValue` has an empty body. -/
def initServiceDefaultConfigValue (s : ServiceConfig) : ServiceConfig := s

/-- Go `initServiceConfig`; the diagnostic line printed when no base file is found
is not part of the model. -/
def initServiceConfig (w : World) (s : ServiceConfig) : Except String ServiceConfig :=
  let serviceConfigPath := getServiceConfigPath w
  if serviceConfigPath = "" then .ok s
  else
    match parseServiceConfig w serviceConfigPath s with
    | .error e => .error e
    | .ok s =>
      let localhostConfigPath := getLocalhostConfigPath w
      match (if localhostConfigPath ≠ "" then parseServiceConfig w localhostConfigPath s
             else .ok s) with
      | .error e => .error e
      | .ok s => .ok (parseEnv w s)

/-- The package `init`: resolution starts from the zero record. -/
def init (w : World) : Except String ServiceConfig :=
  initServiceConfig w (initServiceDefaultConfigValue {})

/-! ## Vocabulary for the statements -/

/-- The value of a leaf field: a string or a `uint32`. -/
inductive Value where
  | str : String → Value
  | num : Nat → Value
  deriving DecidableEq, Repr

/-- The leaf fields of the record. -/
inductive Field where
  | DatabaseHostAddress | DatabasePort | DatabaseName | DatabaseUser | DatabasePassword
  | HTTPBaseURL | HTTPHost | HTTPPort
  | RedisHost | RedisPort
  | AuthPrivateKey | AuthPublicKey
  | AuthAccessTokenExpirationMillis | AuthRefreshTokenExpirationMillis
  | AuthCleanUpSessionMillis
  | MailServiceApiKey
  | Env
  | LoggerConfigPath
  deriving DecidableEq, Repr

/-- Reading a leaf field. -/
def Field.get : Field → serviceConfig → Value
  | .DatabaseHostAddress, r => .str r.Database.HostAddress
  | .DatabasePort, r => .str r.Database.Port
  | .DatabaseName, r => .str r.Database.Name
  | .DatabaseUser, r => .str r.Database.User
  | .DatabasePassword, r => .str r.Database.Password
  | .HTTPBaseURL, r => .str r.HTTP.BaseURL
  | .HTTPHost, r => .str r.HTTP.Host
  | .HTTPPort, r => .str r.HTTP.Port
  | .RedisHost, r => .str r.Redis.Host
  | .RedisPort, r => .str r.Redis.Port
  | .AuthPrivateKey, r => .str r.Auth.PrivateKey
  | .AuthPublicKey, r => .str r.Auth.PublicKey
  | .AuthAccessTokenExpirationMillis, r => .num r.Auth.AccessTokenExpirationMillis
  | .AuthRefreshTokenExpirationMillis, r => .num r.Auth.RefreshTokenExpirationMillis
  | .AuthCleanUpSessionMillis, r => .num r.Auth.CleanUpSessionMillis
  | .MailServiceApiKey, r => .str r.MailService.ApiKey
  | .Env, r => .str r.Env
  | .LoggerConfigPath, r => .str r.Logger.ConfigPath

/-- The environment variable that `parseEnv` reads for a field, if there is one. -/
def Field.envVar : Field → Option String
  | .Env => some envEnv
  | .HTTPPort => some envPort
  | .RedisHost => some envRedisHost
  | .RedisPort => some envRedisPort
  | .DatabaseHostAddress => some envDBHost
  | .DatabasePort => some envDBPort
  | .DatabaseUser => some envDBUsername
  | .DatabasePassword => some envDBPassword
  | .AuthPrivateKey => some envLoginPrivateKey
  | .AuthPublicKey => some envLoginPublicKey
  | .AuthAccessTokenExpirationMillis => some envAccessTokenExpiration
  | .AuthRefreshTokenExpirationMillis => some envRefreshTokenExpiration
  | _ => none

/-- The two numeric fields that have an override variable. -/
def Field.isNumericOverride : Field → Bool
  | .AuthAccessTokenExpirationMillis => true
  | .AuthRefreshTokenExpirationMillis => true
  | _ => false

/-- The environment does not override the field: it has no override variable, or
that variable is unset or empty. -/
def Field.envUnset (w : World) (f : Field) : Prop :=
  ∀ name, f.envVar = some name → Getenv w name = ""

/-- What the overlay does to one field whose value was `old`. -/
def Field.overlay (w : World) : Field → Value → Value
  | .Env, old =>
    if ToLower w (Getenv w envEnv) ≠ "" then .str (ToLower w (Getenv w envEnv)) else old
  | .AuthAccessTokenExpirationMillis, old =>
    if Getenv w envAccessTokenExpiration ≠ "" ∧ (Atoi (Getenv w envAccessTokenExpiration)).1 ≠ 0
    then .num (toUint32 (Atoi (Getenv w envAccessTokenExpiration)).1) else old
  | .AuthRefreshTokenExpirationMillis, old =>
    if Getenv w envRefreshTokenExpiration ≠ "" ∧ (Atoi (Getenv w envRefreshTokenExpiration)).1 ≠ 0
    then .num (toUint32 (Atoi (Getenv w envRefreshTokenExpiration)).1) else old
  | f, old =>
    match f.envVar with
    | some name => if Getenv w name ≠ "" then .str (Getenv w name) else old
    | none => old

/-- The decoder that `parseServiceConfig` dispatches to for a path, if any. -/
def decoderOf (w : World) (configPath : String) : Option Unmarshal :=
  match getSuffix configPath with
  | .ok suffix =>
    if suffix = "json" then some w.jsonUnmarshal
    else if suffix = "yaml" ∨ suffix = "yml" then some w.yamlUnmarshal
    else none
  | .error _ => none

/-- The file content `data` sets field `f` to `v` under decoder `dec`: whatever
record it is decoded into, the field is `v` afterwards. -/
def Sets (dec : Unmarshal) (data : List UInt8) (f : Field) (v : Value) : Prop :=
  ∀ r, f.get (dec data r).data = v

/-- The file content `data` does not set field `f` under decoder `dec`: decoding
leaves the field as it was. -/
def Keeps (dec : Unmarshal) (data : List UInt8) (f : Field) : Prop :=
  ∀ r, f.get (dec data r).data = f.get r

/-- A string is a decimal integer literal: an optional sign and at least one digit. -/
def isDecimalLiteral (s : String) : Bool :=
  match s.data with
  | '-' :: t => !t.isEmpty && t.all Char.isDigit
  | '+' :: t => !t.isEmpty && t.all Char.isDigit
  | l => !l.isEmpty && l.all Char.isDigit

/-! ## Scenarios

The files under `test_configs/` are not among the sources. Each is represented
here by a one-byte content, which `demoUnmarshal` decodes to the assignments
that the expected records of the test suite show. -/

/-- Content standing for `test_configs/service.yml`. -/
def serviceYml : List UInt8 := [1]

/-- Content standing for `test_configs/localhost_service.yml`. -/
def localhostServiceYml : List UInt8 := [2]

/-- Content of a file that sets `env` to the upper-case tag `TEST`. -/
def upperEnvYml : List UInt8 := [3]

/-- Content of a file that sets the HTTP port to `99999`. -/
def badPortYml : List UInt8 := [4]

/-- Content of a file that sets the database port to `99999`. -/
def badDatabasePortYml : List UInt8 := [5]

/-- The record expected by `TestInitializeServiceConfig`, `TestParseJSON` and `TestParseYAML`. -/
def expectedService : serviceConfig where
  Database := { HostAddress := "123.456.789.10", Port := "5432", Name := "fitx",
                User := "fitx", Password := "123456" }
  HTTP := { BaseURL := "localhost", Host := "localhost", Port := "9876" }
  Redis := { Host := "localhost", Port := "6379" }
  Auth := { PrivateKey := "private_key", PublicKey := "public_key",
            AccessTokenExpirationMillis := 300000,
            RefreshTokenExpirationMillis := 2592000000 }
  MailService := { ApiKey := "api_key" }
  Env := "test"
  Logger := { ConfigPath := "config_path" }

/-- The record expected by `TestInitializeServiceConfigLocalhost`. -/
def expectedLocalhost : serviceConfig where
  Database := { HostAddress := "localhost", Port := "5432", Name := "localhost_fitx",
                User := "localhost_fitx", Password := "123456" }
  HTTP := { BaseURL := "localhost", Host := "localhost", Port := "9876" }
  Redis := { Host := "localhost", Port := "6379" }
  Auth := { PrivateKey := "localhost_private_key", PublicKey := "localhost_public_key",
            AccessTokenExpirationMillis := 300000,
            RefreshTokenExpirationMillis := 2592000000 }
  MailService := { ApiKey := "localhost_api_key" }
  Env := "test"
  Logger := { ConfigPath := "localhost_config_path" }

/-- A decoder for the scenario contents; any other content is a decode error. -/
def demoUnmarshal : Unmarshal := fun data r =>
  if data = serviceYml then
    ⟨{ expectedService with Auth.CleanUpSessionMillis := r.Auth.CleanUpSessionMillis }, false⟩
  else if data = localhostServiceYml then
    ⟨{ r with
        Database.HostAddress := "localhost"
        Database.Name := "localhost_fitx"
        Database.User := "localhost_fitx"
        Auth.PrivateKey := "localhost_private_key"
        Auth.PublicKey := "localhost_public_key"
        MailService.ApiKey := "localhost_api_key"
        Logger.ConfigPath := "localhost_config_path" }, false⟩
  else if data = upperEnvYml then ⟨{ r with Env := "TEST" }, false⟩
  else if data = badPortYml then ⟨{ r with HTTP.Port := "99999" }, false⟩
  else if data = badDatabasePortYml then ⟨{ r with Database.Port := "99999" }, false⟩
  else ⟨r, true⟩

/-- A world with the given environment variables and files, the scenario decoder
for both formats, and no case mapping outside ASCII. -/
def demoWorld (vars : List (String × String)) (files : List (String × List UInt8)) : World where
  environ := fun key => vars.lookup key
  stat := fun p => if (files.lookup p).isSome then .ok else .notExist
  readFile := fun p => files.lookup p
  jsonUnmarshal := demoUnmarshal
  yamlUnmarshal := demoUnmarshal
  unicodeToLower := fun c => c

/-- The setting of `TestInitializeServiceConfigLocalhost`. -/
def localhostWorld : World :=
  demoWorld
    [(serviceConfigPath, "./test_configs/service.yml"),
     (localhostConfigPath, "./test_configs/localhost_service.yml")]
    [("./test_configs/service.yml", serviceYml),
     ("./test_configs/localhost_service.yml", localhostServiceYml)]

/-! ## Method calls

The accessors have pointer receivers. A call of a method whose body is a single
`return` of a field yields that value and leaves the receiver as it was. -/

/-- A call of a read-only method on the receiver `s`: the value returned and the
receiver after the call. -/
def ServiceConfig.call {α : Type} (method : ServiceConfig → α) (s : ServiceConfig) :
    α × ServiceConfig :=
  (method s, s)

/-! ## Field names in the files

The struct tags of the record: every field carries a `json:"..."` and a
`yaml:"..."` tag; a leaf is addressed by the tag of its section followed by its
own tag. -/

/-- The `json` tags on the way to a leaf field. -/
def Field.jsonTag : Field → List String
  | .DatabaseHostAddress => ["database", "host_address"]
  | .DatabasePort => ["database", "port"]
  | .DatabaseName => ["database", "name"]
  | .DatabaseUser => ["database", "user"]
  | .DatabasePassword => ["database", "password"]
  | .HTTPBaseURL => ["http", "base_url"]
  | .HTTPHost => ["http", "host"]
  | .HTTPPort => ["http", "port"]
  | .RedisHost => ["redis", "host"]
  | .RedisPort => ["redis", "port"]
  | .AuthPrivateKey => ["auth", "private_key"]
  | .AuthPublicKey => ["auth", "public_key"]
  | .AuthAccessTokenExpirationMillis => ["auth", "access_token_expiration_millis"]
  | .AuthRefreshTokenExpirationMillis => ["auth", "refresh_token_expiration_millis"]
  | .AuthCleanUpSessionMillis => ["auth", "clean_up_session_millis"]
  | .MailServiceApiKey => ["mail_service", "api_key"]
  | .Env => ["env"]
  | .LoggerConfigPath => ["logger", "config_path"]

/-- The `yaml` tags on the way to a leaf field. -/
def Field.yamlTag : Field → List String
  | .DatabaseHostAddress => ["database", "host_address"]
  | .DatabasePort => ["database", "port"]
  | .DatabaseName => ["database", "name"]
  | .DatabaseUser => ["database", "user"]
  | .DatabasePassword => ["database", "password"]
  | .HTTPBaseURL => ["http", "base_url"]
  | .HTTPHost => ["http", "host"]
  | .HTTPPort => ["http", "port"]
  | .RedisHost => ["redis", "host"]
  | .RedisPort => ["redis", "port"]
  | .AuthPrivateKey => ["auth", "private_key"]
  | .AuthPublicKey => ["auth", "public_key"]
  | .AuthAccessTokenExpirationMillis => ["auth", "access_token_expiration_millis"]
  | .AuthRefreshTokenExpirationMillis => ["auth", "refresh_token_expiration_millis"]
  | .AuthCleanUpSessionMillis => ["auth", "clean_up_session_millis"]
  | .MailServiceApiKey => ["mail_service", "api_key"]
  | .Env => ["env"]
  | .LoggerConfigPath => ["logger", "config_path"]

/-- All leaf fields, in declaration order. -/
def Field.all : List Field :=
  [.DatabaseHostAddress, .DatabasePort, .DatabaseName, .DatabaseUser, .DatabasePassword,
   .HTTPBaseURL, .HTTPHost, .HTTPPort, .RedisHost, .RedisPort,
   .AuthPrivateKey, .AuthPublicKey, .AuthAccessTokenExpirationMillis,
   .AuthRefreshTokenExpirationMillis, .AuthCleanUpSessionMillis,
   .MailServiceApiKey, .Env, .LoggerConfigPath]

/-- Writing a leaf field; `none` when the value is not of the field's type (a
number for a string field, a string or a number of 2^32 or more for a `uint32`). -/
def Field.set : Field → Value → serviceConfig → Option serviceConfig
  | .DatabaseHostAddress, .str v, r => some { r with Database.HostAddress := v }
  | .DatabasePort, .str v, r => some { r with Database.Port := v }
  | .DatabaseName, .str v, r => some { r with Database.Name := v }
  | .DatabaseUser, .str v, r => some { r with Database.User := v }
  | .DatabasePassword, .str v, r => some { r with Database.Password := v }
  | .HTTPBaseURL, .str v, r => some { r with HTTP.BaseURL := v }
  | .HTTPHost, .str v, r => some { r with HTTP.Host := v }
  | .HTTPPort, .str v, r => some { r with HTTP.Port := v }
  | .RedisHost, .str v, r => some { r with Redis.Host := v }
  | .RedisPort, .str v, r => some { r with Redis.Port := v }
  | .AuthPrivateKey, .str v, r => some { r with Auth.PrivateKey := v }
  | .AuthPublicKey, .str v, r => some { r with Auth.PublicKey := v }
  | .AuthAccessTokenExpirationMillis, .num n, r =>
    if n < 2 ^ 32 then some { r with Auth.AccessTokenExpirationMillis := n } else none
  | .AuthRefreshTokenExpirationMillis, .num n, r =>
    if n < 2 ^ 32 then some { r with Auth.RefreshTokenExpirationMillis := n } else none
  | .AuthCleanUpSessionMillis, .num n, r =>
    if n < 2 ^ 32 then some { r with Auth.CleanUpSessionMillis := n } else none
  | .MailServiceApiKey, .str v, r => some { r with MailService.ApiKey := v }
  | .Env, .str v, r => some { r with Env := v }
  | .LoggerConfigPath, .str v, r => some { r with Logger.ConfigPath := v }
  | _, _, _ => none

/-- The local-override file, decoded on top of the record `s1`, passes
validation: there is no local-override path, or the file cannot be read, or its
suffix selects no decoder, or the selected decoder reports no error and leaves a
valid HTTP port. -/
def overrideFilePasses (w : World) (s1 : ServiceConfig) : Prop :=
  getLocalhostConfigPath w = "" ∨
    w.readFile (getLocalhostConfigPath w) = none ∨
    decoderOf w (getLocalhostConfigPath w) = none ∨
    ∃ (dq : List UInt8) (decQ : Unmarshal),
      w.readFile (getLocalhostConfigPath w) = some dq ∧
      decoderOf w (getLocalhostConfigPath w) = some decQ ∧
      (decQ dq s1.data).err = false ∧
      isValidPort (decQ dq s1.data).data.HTTP.Port = true

/-! ## The two decoder libraries

The packages `encoding/json` and `gopkg.in/yaml.v3` are not among the sources.
The definitions of this section model them, from the spec's description of the
decoders (decoding by a fixed field-name mapping shared across formats) and, where
the spec is silent, from the documented behaviour of the two libraries. The model
works on the parsed text of a file, restricted to what the record can hold: a
top-level mapping whose entries are scalars (strings or non-negative integers
written in plain decimal) or one-level mappings of such scalars. Other scalars
(null, booleans, floats, negative numbers) and deeper nesting are not represented. -/

/-- What stands under a top-level key of a file: a scalar, or a mapping of keys
to scalars, in file order. -/
inductive Node where
  | scalar : Value → Node
  | mapping : List (String × Value) → Node

/-- The parsed text of a file: the entries of its top-level mapping, in file
order, keys spelled as in the file. -/
abbrev Doc := List (String × Node)

/-- The three `uint32` fields. -/
def Field.isNumber : Field → Bool
  | .AuthAccessTokenExpirationMillis => true
  | .AuthRefreshTokenExpirationMillis => true
  | .AuthCleanUpSessionMillis => true
  | _ => false

/-- The ways in which the two libraries differ on such files. -/
structure Codec where
  /-- the struct tags the library reads -/
  tag : Field → List String
  /-- whether a key that is not a tag still names the tag `t` -/
  looseKey : String → String → Bool
  /-- whether a key repeated within a mapping is an error -/
  uniqueKeys : Bool
  /-- whether a number given for a string field is stored as its text -/
  numberAsText : Bool

/-- Modelled from the spec: `json.Unmarshal` of `encoding/json`, which is not among
the sources. It decodes by field name (spec 4.3). Where the spec is silent the
library's documented behaviour is taken: a key names a field when it is the
field's tag or, failing that, equals it under `strings.EqualFold` (the parameter
`equalFold`); a repeated key is decoded again, the later value winning; a value
that is not of the field's type is skipped and reported as an error. -/
def jsonCodec (equalFold : String → String → Bool) : Codec where
  tag := Field.jsonTag
  looseKey := equalFold
  uniqueKeys := false
  numberAsText := false

/-- Modelled from the spec: `yaml.Unmarshal` of `gopkg.in/yaml.v3`, which is not
among the sources. It decodes by field name (spec 4.3). Where the spec is silent
the library's documented behaviour is taken: a key names a field only when it is
exactly the field's tag; a key repeated within a mapping is an error and the
mapping is not decoded; a number given for a string field is stored as its text;
any other value that is not of the field's type is skipped and reported as an
error. -/
def yamlCodec : Codec where
  tag := Field.yamlTag
  looseKey := fun _ _ => false
  uniqueKeys := true
  numberAsText := true

/-- Some key occurs twice in the list. -/
def hasRepeat (keys : List String) : Bool :=
  decide (¬ keys.Nodup)

/-- The name that a key of the file stands for among `names`: the key itself when
it is one of them, otherwise the first name it loosely matches. -/
def Codec.resolve (c : Codec) (names : List String) (key : String) : Option String :=
  if names.contains key then some key else names.find? (fun t => c.looseKey t key)

/-- The tags of the top-level fields, in declaration order. -/
def Codec.topNames (c : Codec) : List String :=
  Field.all.map (fun f => (c.tag f).headD "")

/-- The tags of the fields of the section tagged `t`. -/
def Codec.leafNames (c : Codec) (t : String) : List String :=
  Field.all.filterMap (fun f =>
    match c.tag f with
    | [s, l] => if s = t then some l else none
    | _ => none)

/-- The leaf field with the given path of tags. -/
def Codec.fieldAt (c : Codec) (path : List String) : Option Field :=
  Field.all.find? (fun f => c.tag f == path)

/-- Storing one scalar into one leaf field. -/
def Codec.assign (c : Codec) (f : Field) (v : Value) (acc : Unmarshalled) : Unmarshalled :=
  match f.set v acc.data with
  | some r => ⟨r, acc.err⟩
  | none =>
    match v with
    | .num n =>
      if c.numberAsText then
        match f.set (.str (toString n)) acc.data with
        | some r => ⟨r, acc.err⟩
        | none => ⟨acc.data, true⟩
      else ⟨acc.data, true⟩
    | .str _ => ⟨acc.data, true⟩

/-- Decoding the mapping given for the section tagged `t`. -/
def Codec.decodeSection (c : Codec) (t : String) (entries : List (String × Value))
    (acc : Unmarshalled) : Unmarshalled :=
  if c.uniqueKeys && hasRepeat (entries.map Prod.fst) then ⟨acc.data, true⟩
  else
    entries.foldl
      (fun acc e =>
        match c.resolve (c.leafNames t) e.1 with
        | none => acc
        | some l =>
          match c.fieldAt [t, l] with
          | some f => c.assign f e.2 acc
          | none => acc)
      acc

/-- Decoding one top-level entry: a key that names no field is ignored; a scalar
is stored into the top-level leaf it names and is a type error for a section; a
mapping is decoded into the section it names and is a type error for a leaf. -/
def Codec.decodeEntry (c : Codec) (acc : Unmarshalled) (e : String × Node) : Unmarshalled :=
  match c.resolve c.topNames e.1 with
  | none => acc
  | some t =>
    match e.2, c.fieldAt [t] with
    | .scalar v, some f => c.assign f v acc
    | .scalar _, none => ⟨acc.data, true⟩
    | .mapping _, some _ => ⟨acc.data, true⟩
    | .mapping entries, none => c.decodeSection t entries acc

/-- Modelled from the spec: the call `Unmarshal(data, &record)` of either library,
neither of which is among the sources. The entries of the file are decoded in
file order into the fields they name; text that does not parse (`none`) is an
error that leaves the record alone, and so is, where keys must be unique, a
repeated top-level key. -/
def Codec.decode (c : Codec) (doc : Option Doc) (r : serviceConfig) : Unmarshalled :=
  match doc with
  | none => ⟨r, true⟩
  | some d =>
    if c.uniqueKeys && hasRepeat (d.map Prod.fst) then ⟨r, true⟩
    else d.foldl c.decodeEntry ⟨r, false⟩

/-- A world whose decoders are the two library models over the given parsers of
JSON and YAML text; it has no environment and no files. -/
def libWorld (equalFold : String → String → Bool)
    (jsonText yamlText : List UInt8 → Option Doc) : World where
  environ := fun _ => none
  stat := fun _ => .notExist
  readFile := fun _ => none
  jsonUnmarshal := fun data r => (jsonCodec equalFold).decode (jsonText data) r
  yamlUnmarshal := fun data r => yamlCodec.decode (yamlText data) r
  unicodeToLower := fun c => c

/-- All keys of a file, top-level and nested. -/
def Doc.keys (d : Doc) : List String :=
  d.map Prod.fst ++
    d.flatMap (fun e =>
      match e.2 with
      | .scalar _ => []
      | .mapping entries => entries.map Prod.fst)

/-- All names that occur in the tags. -/
def tagNames : List String :=
  (Field.all.map Field.jsonTag).flatten

/-- Every key of the file that matches a tag name up to `equalFold` is spelled
exactly as that name. -/
def Doc.exactNames (equalFold : String → String → Bool) (d : Doc) : Bool :=
  d.keys.all (fun k => tagNames.all (fun t => !equalFold t k || t == k))

/-- No key is repeated within a mapping of the file. -/
def Doc.uniqueNames (d : Doc) : Bool :=
  !hasRepeat (d.map Prod.fst) &&
    d.all (fun e =>
      match e.2 with
      | .scalar _ => true
      | .mapping entries => !hasRepeat (entries.map Prod.fst))

/-- A number under the path of tags of a field is allowed only for a `uint32` field. -/
def typedAt (path : List String) (v : Value) : Bool :=
  match v, Field.all.find? (fun f => f.jsonTag == path) with
  | .num _, some f => f.isNumber
  | _, _ => true

/-- No string field of the record is given a number by the file. -/
def Doc.noNumberForString (d : Doc) : Bool :=
  d.all (fun e =>
    match e.2 with
    | .scalar v => typedAt [e.1] v
    | .mapping entries => entries.all (fun x => typedAt [e.1, x.1] x.2))

/-- Equality of strings up to the case of ASCII letters, which is what
`strings.EqualFold` is on ASCII text. -/
def equalFoldASCII (a b : String) : Bool :=
  a.data.map Char.toLower == b.data.map Char.toLower

/-- The text of `test_configs/service.json` and `test_configs/service.yml`, as the
record expected by `TestParseJSON` and `TestParseYAML` shows it. -/
def serviceDoc : Doc :=
  [("database", .mapping [("host_address", .str "123.456.789.10"), ("port", .str "5432"),
      ("name", .str "fitx"), ("user", .str "fitx"), ("password", .str "123456")]),
   ("http", .mapping [("base_url", .str "localhost"), ("host", .str "localhost"),
      ("port", .str "9876")]),
   ("redis", .mapping [("host", .str "localhost"), ("port", .str "6379")]),
   ("auth", .mapping [("private_key", .str "private_key"), ("public_key", .str "public_key"),
      ("access_token_expiration_millis", .num 300000),
      ("refresh_token_expiration_millis", .num 2592000000)]),
   ("mail_service", .mapping [("api_key", .str "api_key")]),
   ("env", .scalar (.str "test")),
   ("logger", .mapping [("config_path", .str "config_path")])]

/-- Content standing for `test_configs/service.json`. -/
def serviceJson : List UInt8 := [6]

/-- Content standing for a JSON file whose only entry is `"env": 5`. -/
def envFiveJson : List UInt8 := [7]

/-- Content standing for a YAML file whose only line is `env: 5`. -/
def envFiveYaml : List UInt8 := [8]

/-- Content standing for a JSON file whose only entry is `"ENV": "live"`. -/
def upperKeyJson : List UInt8 := [9]

/-- Content standing for a YAML file whose only line is `ENV: live`. -/
def upperKeyYaml : List UInt8 := [10]

/-- Content standing for a JSON file that gives `"env"` twice, `"test"` then `"live"`. -/
def twiceJson : List UInt8 := [11]

/-- Content standing for a YAML file that gives `env` twice, `test` then `live`. -/
def twiceYaml : List UInt8 := [12]

/-- The parsed text of a file with the single entry `env: 5`. -/
def envFiveDoc : Doc := [("env", .scalar (.num 5))]

/-- The parsed text of a file with the single entry `ENV: live`. -/
def upperKeyDoc : Doc := [("ENV", .scalar (.str "live"))]

/-- The parsed text of a file that gives `env` twice. -/
def twiceDoc : Doc := [("env", .scalar (.str "test")), ("env", .scalar (.str "live"))]

/-- A JSON parser that knows the scenario contents. -/
def demoJsonText (data : List UInt8) : Option Doc :=
  if data = serviceJson then some serviceDoc
  else if data = envFiveJson then some envFiveDoc
  else if data = upperKeyJson then some upperKeyDoc
  else if data = twiceJson then some twiceDoc
  else none

/-- A YAML parser that knows the scenario contents. -/
def demoYamlText (data : List UInt8) : Option Doc :=
  if data = serviceYml then some serviceDoc
  else if data = envFiveYaml then some envFiveDoc
  else if data = upperKeyYaml then some upperKeyDoc
  else if data = twiceYaml then some twiceDoc
  else none

/-- The world of the two library models over the scenario parsers. -/
def demoLibWorld : World :=
  libWorld equalFoldASCII demoJsonText demoYamlText

end serviceconfig

namespace serviceconfig

/-! ## Lemmas on `isValidPort` -/

theorem isDigit_iff (c : Char) : c.isDigit = true ↔ 48 ≤ c.toNat ∧ c.toNat ≤ 57 := by
  simp [Char.isDigit, Char.toNat, UInt32.le_def, BitVec.le_def, UInt32.toNat]

theorem char_eq_iff (a b : Char) : a = b ↔ a.toNat = b.toNat := by
  constructor
  · intro h; rw [h]
  · intro h
    have := congrArg Char.ofNat h
    simpa using this

/-- A pattern that starts with `^` matches nowhere after offset 0. -/
theorem search_bol (r : Regexp) (s : List Char) (pos : Nat) :
    (Regexp.cat Regexp.bol r).search (pos + 1) s = false := by
  induction s generalizing pos with
  | nil => simp [Regexp.search, Regexp.run]
  | cons c cs ih => simp [Regexp.search, Regexp.run, ih]

/-- The search of `isValidPort` is a match of the whole text from offset 0. -/
theorem isValidPort_eq (s : String) :
    isValidPort s = portPattern.run 0 s.data (fun _ _ => true) := by
  unfold isValidPort MatchString
  cases h : s.data with
  | nil => simp [Regexp.search]
  | cons c cs =>
    rw [Regexp.search]
    have : portPattern.search (0 + 1) cs = false := search_bol _ cs 0
    rw [this]; simp

theorem foldl_digits_ge (t : List Char) (n : Nat) :
    n ≤ t.foldl (fun n c => 10 * n + (c.toNat - 48)) n := by
  induction t generalizing n with
  | nil => simp
  | cons c cs ih =>
    simp only [List.foldl_cons]
    exact Nat.le_trans (by omega) (ih _)

theorem run_nil : portPattern.run 0 [] (fun _ _ => true) = true := by
  simp [portPattern, Regexp.run]

theorem run_one (a : Char) :
    portPattern.run 0 [a] (fun _ _ => true) = true ↔ 48 ≤ a.toNat ∧ a.toNat ≤ 57 := by
  simp [portPattern, Regexp.run, Regexp.rep, Regexp.repRange, Regexp.upTo, char_eq_iff]

theorem run_two (a b : Char) :
    portPattern.run 0 [a, b] (fun _ _ => true) = true ↔
      (48 ≤ a.toNat ∧ a.toNat ≤ 57) ∧ 48 ≤ b.toNat ∧ b.toNat ≤ 57 := by
  simp [portPattern, Regexp.run, Regexp.rep, Regexp.repRange, Regexp.upTo, char_eq_iff]

theorem run_three (a b c : Char) :
    portPattern.run 0 [a, b, c] (fun _ _ => true) = true ↔
      (48 ≤ a.toNat ∧ a.toNat ≤ 57) ∧ (48 ≤ b.toNat ∧ b.toNat ≤ 57) ∧
        48 ≤ c.toNat ∧ c.toNat ≤ 57 := by
  simp [portPattern, Regexp.run, Regexp.rep, Regexp.repRange, Regexp.upTo, char_eq_iff]

theorem run_four (a b c d : Char) :
    portPattern.run 0 [a, b, c, d] (fun _ _ => true) = true ↔
      (48 ≤ a.toNat ∧ a.toNat ≤ 57) ∧ (48 ≤ b.toNat ∧ b.toNat ≤ 57) ∧
        (48 ≤ c.toNat ∧ c.toNat ≤ 57) ∧ 48 ≤ d.toNat ∧ d.toNat ≤ 57 := by
  simp [portPattern, Regexp.run, Regexp.rep, Regexp.repRange, Regexp.upTo, char_eq_iff]

/-- The five-character alternatives of the pattern, read off character codes. -/
theorem run_five (a b c d e : Char) :
    portPattern.run 0 [a, b, c, d, e] (fun _ _ => true) = true ↔
      ((49 ≤ a.toNat ∧ a.toNat ≤ 53) ∧ (48 ≤ b.toNat ∧ b.toNat ≤ 57) ∧
          (48 ≤ c.toNat ∧ c.toNat ≤ 57) ∧ (48 ≤ d.toNat ∧ d.toNat ≤ 57) ∧
            48 ≤ e.toNat ∧ e.toNat ≤ 57) ∨
        (a.toNat = 54 ∧ (48 ≤ b.toNat ∧ b.toNat ≤ 52) ∧ (48 ≤ c.toNat ∧ c.toNat ≤ 57) ∧
            (48 ≤ d.toNat ∧ d.toNat ≤ 57) ∧ 48 ≤ e.toNat ∧ e.toNat ≤ 57) ∨
          (a.toNat = 54 ∧ b.toNat = 53 ∧ (48 ≤ c.toNat ∧ c.toNat ≤ 52) ∧
              (48 ≤ d.toNat ∧ d.toNat ≤ 57) ∧ 48 ≤ e.toNat ∧ e.toNat ≤ 57) ∨
            (a.toNat = 54 ∧ b.toNat = 53 ∧ c.toNat = 53 ∧ (48 ≤ d.toNat ∧ d.toNat ≤ 50) ∧
                48 ≤ e.toNat ∧ e.toNat ≤ 57) ∨
              (a.toNat = 54 ∧ b.toNat = 53 ∧ c.toNat = 53 ∧ d.toNat = 51 ∧
                48 ≤ e.toNat ∧ e.toNat ≤ 53) := by
  simp [portPattern, Regexp.run, Regexp.rep, Regexp.repRange, Regexp.upTo, char_eq_iff]

/-- No alternative of the pattern matches six characters or more. -/
theorem run_long (a b c d e f : Char) (t : List Char) :
    portPattern.run 0 (a :: b :: c :: d :: e :: f :: t) (fun _ _ => true) = false := by
  simp [portPattern, Regexp.run, Regexp.rep, Regexp.repRange, Regexp.upTo]

/-- The digit-wise comparison of the five-character alternatives is the
comparison of the value with 65535, for digits `a` to `e` and `a` not zero. -/
theorem five_digits (a b c d e : Nat) (ha : 48 ≤ a ∧ a ≤ 57) (hb : 48 ≤ b ∧ b ≤ 57)
    (hc : 48 ≤ c ∧ c ≤ 57) (hd : 48 ≤ d ∧ d ≤ 57) (he : 48 ≤ e ∧ e ≤ 57) :
    (((49 ≤ a ∧ a ≤ 53) ∧ (48 ≤ b ∧ b ≤ 57) ∧ (48 ≤ c ∧ c ≤ 57) ∧ (48 ≤ d ∧ d ≤ 57) ∧
            48 ≤ e ∧ e ≤ 57) ∨
        (a = 54 ∧ (48 ≤ b ∧ b ≤ 52) ∧ (48 ≤ c ∧ c ≤ 57) ∧ (48 ≤ d ∧ d ≤ 57) ∧
            48 ≤ e ∧ e ≤ 57) ∨
          (a = 54 ∧ b = 53 ∧ (48 ≤ c ∧ c ≤ 52) ∧ (48 ≤ d ∧ d ≤ 57) ∧ 48 ≤ e ∧ e ≤ 57) ∨
            (a = 54 ∧ b = 53 ∧ c = 53 ∧ (48 ≤ d ∧ d ≤ 50) ∧ 48 ≤ e ∧ e ≤ 57) ∨
              (a = 54 ∧ b = 53 ∧ c = 53 ∧ d = 51 ∧ 48 ≤ e ∧ e ≤ 53)) ↔
      (a ≠ 48 ∧
        10 * (10 * (10 * (10 * (a - 48) + (b - 48)) + (c - 48)) + (d - 48)) + (e - 48)
          ≤ 65535) := by
  constructor
  · rintro (h | h | h | h | h) <;> omega
  · rintro ⟨h1, h2⟩
    by_cases h5 : a ≤ 53
    · exact Or.inl ⟨⟨by omega, h5⟩, hb, hc, hd, he⟩
    · have ha6 : a = 54 := by omega
      subst ha6
      by_cases h4 : b ≤ 52
      · exact Or.inr (Or.inl ⟨rfl, ⟨hb.1, h4⟩, hc, hd, he⟩)
      · have hb5 : b = 53 := by omega
        subst hb5
        by_cases h3 : c ≤ 52
        · exact Or.inr (Or.inr (Or.inl ⟨rfl, rfl, ⟨hc.1, h3⟩, hd, he⟩))
        · have hc5 : c = 53 := by omega
          subst hc5
          by_cases h2' : d ≤ 50
          · exact Or.inr (Or.inr (Or.inr (Or.inl ⟨rfl, rfl, rfl, ⟨hd.1, h2'⟩, he⟩)))
          · have hd3 : d = 51 := by omega
            subst hd3
            exact Or.inr (Or.inr (Or.inr (Or.inr ⟨rfl, rfl, rfl, rfl, he.1, by omega⟩)))

/-! ## C1: `isValidPort` on decimal strings -/

/-- C1, as stated, fails: `"00000"` is a decimal string whose value 0 lies in
0..65535, and `isValidPort` rejects it. -/
theorem isValidPort_rejects_five_zeros :
    isDecimal "00000" = true ∧
      ¬ (isValidPort "00000" = true ↔ ("00000" = "" ∨ decimalValue "00000" ≤ 65535)) := by
  decide

/-- C1, amended: for every decimal string `s`, `isValidPort s` is true if and only
if `s` is empty, or the value of `s` is at most 65535 and `s` has at most four
digits or does not start with `0`. -/
theorem isValidPort_decimal (s : String) (h : isDecimal s = true) :
    isValidPort s = true ↔
      s = "" ∨ (decimalValue s ≤ 65535 ∧ (s.length ≤ 4 ∨ s.data.head? ≠ some '0')) := by
  rw [isValidPort_eq]
  obtain ⟨l⟩ := s
  simp only [isDecimal] at h
  simp only [decimalValue, digitsValue, String.length, String.ext_iff, String.data,
    show "".data = [] from rfl]
  rcases l with _ | ⟨a, _ | ⟨b, _ | ⟨c, _ | ⟨d, _ | ⟨e, _ | ⟨f, t⟩⟩⟩⟩⟩⟩
  · simp [run_nil]
  · simp only [List.all_cons, List.all_nil, Bool.and_eq_true, isDigit_iff] at h
    rw [run_one]; simp; omega
  · simp only [List.all_cons, List.all_nil, Bool.and_eq_true, isDigit_iff] at h
    rw [run_two]; simp; omega
  · simp only [List.all_cons, List.all_nil, Bool.and_eq_true, isDigit_iff] at h
    rw [run_three]; simp; omega
  · simp only [List.all_cons, List.all_nil, Bool.and_eq_true, isDigit_iff] at h
    rw [run_four]; simp; omega
  · simp only [List.all_cons, List.all_nil, Bool.and_eq_true, isDigit_iff] at h
    rw [run_five, five_digits a.toNat b.toNat c.toNat d.toNat e.toNat h.1 h.2.1 h.2.2.1
      h.2.2.2.1 h.2.2.2.2.1]
    simp [char_eq_iff]
    omega
  · have hge := foldl_digits_ge t (10 * (10 * (10 * (10 * (10 * (10 * 0 + (a.toNat - 48)) +
      (b.toNat - 48)) + (c.toNat - 48)) + (d.toNat - 48)) + (e.toNat - 48)) + (f.toNat - 48))
    simp only [List.all_cons, Bool.and_eq_true, isDigit_iff] at h
    rw [run_long]
    simp only [Nat.mul_zero, Nat.zero_add] at hge
    simp [char_eq_iff]
    intro h1
    omega

/-- C1, amended, at the string `"8080"`. -/
theorem isValidPort_decimal_witness :
    isDecimal "8080" = true ∧
      (isValidPort "8080" = true ↔
        "8080" = "" ∨
          (decimalValue "8080" ≤ 65535 ∧ ("8080".length ≤ 4 ∨ "8080".data.head? ≠ some '0'))) :=
  ⟨by decide, isValidPort_decimal "8080" (by decide)⟩

end serviceconfig

namespace serviceconfig

/-! ## Lemmas on `parseEnv`: each step touches one field -/

theorem ToLower_eq_empty (w : World) (s : String) : ToLower w s = "" ↔ s = "" := by
  obtain ⟨l⟩ := s
  cases l <;> simp [ToLower, String.ext_iff]

theorem env_get (w : World) (s : ServiceConfig) (f : Field) :
    f.get (parseEnv.env w s).data =
      if f = .Env then f.overlay w (f.get s.data) else f.get s.data := by
  unfold parseEnv.env
  cases f <;> simp only [Field.overlay] <;> split <;> simp_all [Field.get]

theorem serverPort_get (w : World) (s : ServiceConfig) (f : Field) :
    f.get (parseEnv.serverPort w s).data =
      if f = .HTTPPort then f.overlay w (f.get s.data) else f.get s.data := by
  unfold parseEnv.serverPort
  cases f <;> simp only [Field.overlay, Field.envVar] <;> split <;> simp_all [Field.get]

theorem redisHost_get (w : World) (s : ServiceConfig) (f : Field) :
    f.get (parseEnv.redisHost w s).data =
      if f = .RedisHost then f.overlay w (f.get s.data) else f.get s.data := by
  unfold parseEnv.redisHost
  cases f <;> simp only [Field.overlay, Field.envVar] <;> split <;> simp_all [Field.get]

theorem redisPort_get (w : World) (s : ServiceConfig) (f : Field) :
    f.get (parseEnv.redisPort w s).data =
      if f = .RedisPort then f.overlay w (f.get s.data) else f.get s.data := by
  unfold parseEnv.redisPort
  cases f <;> simp only [Field.overlay, Field.envVar] <;> split <;> simp_all [Field.get]

theorem dbHost_get (w : World) (s : ServiceConfig) (f : Field) :
    f.get (parseEnv.dbHost w s).data =
      if f = .DatabaseHostAddress then f.overlay w (f.get s.data) else f.get s.data := by
  unfold parseEnv.dbHost
  cases f <;> simp only [Field.overlay, Field.envVar] <;> split <;> simp_all [Field.get]

theorem dbPort_get (w : World) (s : ServiceConfig) (f : Field) :
    f.get (parseEnv.dbPort w s).data =
      if f = .DatabasePort then f.overlay w (f.get s.data) else f.get s.data := by
  unfold parseEnv.dbPort
  cases f <;> simp only [Field.overlay, Field.envVar] <;> split <;> simp_all [Field.get]

theorem dbUsername_get (w : World) (s : ServiceConfig) (f : Field) :
    f.get (parseEnv.dbUsername w s).data =
      if f = .DatabaseUser then f.overlay w (f.get s.data) else f.get s.data := by
  unfold parseEnv.dbUsername
  cases f <;> simp only [Field.overlay, Field.envVar] <;> split <;> simp_all [Field.get]

theorem dbPassword_get (w : World) (s : ServiceConfig) (f : Field) :
    f.get (parseEnv.dbPassword w s).data =
      if f = .DatabasePassword then f.overlay w (f.get s.data) else f.get s.data := by
  unfold parseEnv.dbPassword
  cases f <;> simp only [Field.overlay, Field.envVar] <;> split <;> simp_all [Field.get]

theorem privateKey_get (w : World) (s : ServiceConfig) (f : Field) :
    f.get (parseEnv.privateKey w s).data =
      if f = .AuthPrivateKey then f.overlay w (f.get s.data) else f.get s.data := by
  unfold parseEnv.privateKey
  cases f <;> simp only [Field.overlay, Field.envVar] <;> split <;> simp_all [Field.get]

theorem publicKey_get (w : World) (s : ServiceConfig) (f : Field) :
    f.get (parseEnv.publicKey w s).data =
      if f = .AuthPublicKey then f.overlay w (f.get s.data) else f.get s.data := by
  unfold parseEnv.publicKey
  cases f <;> simp only [Field.overlay, Field.envVar] <;> split <;> simp_all [Field.get]

theorem accessTokenExpiration_get (w : World) (s : ServiceConfig) (f : Field) :
    f.get (parseEnv.accessTokenExpiration w s).data =
      if f = .AuthAccessTokenExpirationMillis then f.overlay w (f.get s.data) else f.get s.data := by
  unfold parseEnv.accessTokenExpiration
  cases f <;> simp only [Field.overlay, Field.envVar] <;> split <;> (try split) <;>
    simp_all [Field.get]

theorem refreshTokenExpiration_get (w : World) (s : ServiceConfig) (f : Field) :
    f.get (parseEnv.refreshTokenExpiration w s).data =
      if f = .AuthRefreshTokenExpirationMillis then f.overlay w (f.get s.data) else f.get s.data := by
  unfold parseEnv.refreshTokenExpiration
  cases f <;> simp only [Field.overlay, Field.envVar] <;> split <;> (try split) <;>
    simp_all [Field.get]

/-- The overlay, field by field. -/
theorem parseEnv_get (w : World) (s : ServiceConfig) (f : Field) :
    f.get (parseEnv w s).data = f.overlay w (f.get s.data) := by
  unfold parseEnv
  cases f <;>
    simp [env_get, serverPort_get, redisHost_get, redisPort_get, dbHost_get, dbPort_get,
      dbUsername_get, dbPassword_get, privateKey_get, publicKey_get,
      accessTokenExpiration_get, refreshTokenExpiration_get] <;>
    simp [Field.overlay, Field.envVar]

/-- A field that the environment does not override keeps its value. -/
theorem overlay_of_envUnset (w : World) (f : Field) (old : Value) (h : f.envUnset w) :
    f.overlay w old = old := by
  unfold Field.envUnset at h
  cases f <;> simp [Field.overlay, Field.envVar, ToLower_eq_empty] at h ⊢ <;> simp [h]

end serviceconfig

namespace serviceconfig

/-! ## Lemmas on the decoders and on `initServiceConfig` -/

theorem parseJSON_eq (w : World) (data : List UInt8) (s : ServiceConfig) :
    parseJSON w data s =
      if isValidPort (w.jsonUnmarshal data s.data).data.HTTP.Port = false then
        .error "invalid port number"
      else if (w.jsonUnmarshal data s.data).err = true then
        .error "can not parse json service config file"
      else .ok ⟨(w.jsonUnmarshal data s.data).data⟩ := by
  unfold parseJSON
  cases hv : isValidPort (w.jsonUnmarshal data s.data).data.HTTP.Port <;>
    cases he : (w.jsonUnmarshal data s.data).err <;> simp [hv, he]

theorem parseYAML_eq (w : World) (data : List UInt8) (s : ServiceConfig) :
    parseYAML w data s =
      if isValidPort (w.yamlUnmarshal data s.data).data.HTTP.Port = false then
        .error "invalid port number"
      else if (w.yamlUnmarshal data s.data).err = true then
        .error "can not parse yaml-yml service config file"
      else .ok ⟨(w.yamlUnmarshal data s.data).data⟩ := by
  unfold parseYAML
  cases hv : isValidPort (w.yamlUnmarshal data s.data).data.HTTP.Port <;>
    cases he : (w.yamlUnmarshal data s.data).err <;> simp [hv, he]

/-- A file that is read and dispatched to `dec` is accepted exactly when `dec`
reports no error and leaves a valid HTTP port; the record is then the decoded one. -/
theorem parseServiceConfig_ok_iff (w : World) (p : String) (s s' : ServiceConfig)
    (data : List UInt8) (dec : Unmarshal) (hr : w.readFile p = some data)
    (hd : decoderOf w p = some dec) :
    parseServiceConfig w p s = .ok s' ↔
      (isValidPort (dec data s.data).data.HTTP.Port = true ∧ (dec data s.data).err = false ∧
        s' = ⟨(dec data s.data).data⟩) := by
  unfold parseServiceConfig
  unfold decoderOf at hd
  rw [hr]
  cases hsuf : getSuffix p with
  | error e => rw [hsuf] at hd; simp at hd
  | ok suffix =>
    rw [hsuf] at hd
    simp only at hd ⊢
    by_cases hj : suffix = "json"
    · simp only [hj, if_true, Option.some.injEq] at hd ⊢
      subst hd
      rw [parseJSON_eq]
      cases isValidPort (w.jsonUnmarshal data s.data).data.HTTP.Port <;>
        cases (w.jsonUnmarshal data s.data).err <;> simp [eq_comm]
    · simp only [hj, if_false] at hd ⊢
      by_cases hy : suffix = "yaml" ∨ suffix = "yml"
      · simp only [hy, if_true, Option.some.injEq] at hd ⊢
        subst hd
        rw [parseYAML_eq]
        cases isValidPort (w.yamlUnmarshal data s.data).data.HTTP.Port <;>
          cases (w.yamlUnmarshal data s.data).err <;> simp [eq_comm]
      · simp [hy] at hd

/-- Whatever the file, an accepted `parseServiceConfig` keeps the HTTP port valid. -/
theorem parseServiceConfig_port (w : World) (p : String) (s s' : ServiceConfig)
    (hs : isValidPort s.data.HTTP.Port = true) (h : parseServiceConfig w p s = .ok s') :
    isValidPort s'.data.HTTP.Port = true := by
  unfold parseServiceConfig at h
  cases hr : w.readFile p with
  | none => rw [hr] at h; simp at h; subst h; exact hs
  | some data =>
    rw [hr] at h
    cases hsuf : getSuffix p with
    | error e => rw [hsuf] at h; simp at h
    | ok suffix =>
      rw [hsuf] at h
      simp only at h
      by_cases hj : suffix = "json"
      · simp only [hj, if_true] at h
        rw [parseJSON_eq] at h
        cases hv : isValidPort (w.jsonUnmarshal data s.data).data.HTTP.Port <;>
          cases he : (w.jsonUnmarshal data s.data).err <;> simp [hv, he] at h
        subst h; exact hv
      · simp only [hj, if_false] at h
        by_cases hy : suffix = "yaml" ∨ suffix = "yml"
        · simp only [hy, if_true] at h
          rw [parseYAML_eq] at h
          cases hv : isValidPort (w.yamlUnmarshal data s.data).data.HTTP.Port <;>
            cases he : (w.yamlUnmarshal data s.data).err <;> simp [hv, he] at h
          subst h; exact hv
        · simp [hy] at h; subst h; exact hs

/-- The shape of a completed resolution when a base path is found: the base
step, the local-override step, then the overlay. -/
theorem initServiceConfig_ok (w : World) (s s' : ServiceConfig)
    (hp : getServiceConfigPath w ≠ "") (h : initServiceConfig w s = .ok s') :
    ∃ s1 s2, parseServiceConfig w (getServiceConfigPath w) s = .ok s1 ∧
      (if getLocalhostConfigPath w ≠ "" then parseServiceConfig w (getLocalhostConfigPath w) s1
        else .ok s1) = .ok s2 ∧
      s' = parseEnv w s2 := by
  unfold initServiceConfig at h
  simp only [hp, if_false] at h
  cases h1 : parseServiceConfig w (getServiceConfigPath w) s with
  | error e => rw [h1] at h; simp at h
  | ok s1 =>
    rw [h1] at h
    simp only at h
    cases h2 : (if getLocalhostConfigPath w ≠ "" then
        parseServiceConfig w (getLocalhostConfigPath w) s1 else .ok s1) with
    | error e => rw [h2] at h; simp at h
    | ok s2 =>
      rw [h2] at h
      simp only [Except.ok.injEq] at h
      exact ⟨s1, s2, rfl, h2, h.symm⟩

end serviceconfig

namespace serviceconfig

/-! ## C2: the local-override file wins over the base file -/

/-- C2: when the base file and the local-override file are both found, read and
decoded, and the resolution completes, a field that the environment does not
override ends equal to the value the local-override file sets, and to the value
the base file sets when the local-override file does not set the field. -/
theorem initServiceConfig_local_override_wins (w : World) (s s' : ServiceConfig) (f : Field)
    (dp dq : List UInt8) (decP decQ : Unmarshal)
    (hp : getServiceConfigPath w ≠ "") (hq : getLocalhostConfigPath w ≠ "")
    (hrp : w.readFile (getServiceConfigPath w) = some dp)
    (hrq : w.readFile (getLocalhostConfigPath w) = some dq)
    (hdp : decoderOf w (getServiceConfigPath w) = some decP)
    (hdq : decoderOf w (getLocalhostConfigPath w) = some decQ)
    (hok : initServiceConfig w s = .ok s')
    (henv : f.envUnset w) :
    (∀ v, Sets decQ dq f v → f.get s'.data = v) ∧
      (∀ v, Keeps decQ dq f → Sets decP dp f v → f.get s'.data = v) := by
  obtain ⟨s1, s2, h1, h2, rfl⟩ := initServiceConfig_ok w s s' hp hok
  simp only [hq, ne_eq, not_false_eq_true, if_true] at h2
  rw [parseServiceConfig_ok_iff w _ s s1 dp decP hrp hdp] at h1
  rw [parseServiceConfig_ok_iff w _ s1 s2 dq decQ hrq hdq] at h2
  obtain ⟨-, -, rfl⟩ := h1
  obtain ⟨-, -, rfl⟩ := h2
  rw [parseEnv_get, overlay_of_envUnset w f _ henv]
  constructor
  · intro v hset
    exact hset _
  · intro v hkeep hset
    rw [hkeep _]
    exact hset _

/-- C2 in the setting of `TestInitializeServiceConfigLocalhost`: the host address
comes from the local-override file, the database port from the base file. -/
theorem initServiceConfig_local_override_wins_witness :
    initServiceConfig localhostWorld {} = .ok ⟨expectedLocalhost⟩ ∧
      Field.get .DatabaseHostAddress expectedLocalhost = .str "localhost" ∧
      Field.get .DatabasePort expectedLocalhost = .str "5432" :=
  ⟨rfl,
   (initServiceConfig_local_override_wins localhostWorld {} ⟨expectedLocalhost⟩
      .DatabaseHostAddress serviceYml localhostServiceYml demoUnmarshal demoUnmarshal
      (by decide) (by decide) rfl rfl rfl rfl rfl
      (by intro name h; simp only [Field.envVar, Option.some.injEq] at h; subst h; rfl)).1
      (.str "localhost") (fun _ => rfl),
   (initServiceConfig_local_override_wins localhostWorld {} ⟨expectedLocalhost⟩
      .DatabasePort serviceYml localhostServiceYml demoUnmarshal demoUnmarshal
      (by decide) (by decide) rfl rfl rfl rfl rfl
      (by intro name h; simp only [Field.envVar, Option.some.injEq] at h; subst h; rfl)).2
      (.str "5432") (fun _ => rfl) (fun _ => rfl)⟩

/-! ## C3: the environment wins over both files -/

/-- C3, as stated, fails twice. With a base file present and `ENV=PROD` the
resolved `Env` is `prod`, not `PROD`; and with no base file at all the overlay is
never run, so `PORT=8080` leaves the HTTP port empty. -/
theorem initServiceConfig_env_not_verbatim :
    (Getenv (demoWorld [("ENV", "PROD")] [("etc/service.yml", serviceYml)]) envEnv = "PROD" ∧
      ∃ s', initServiceConfig (demoWorld [("ENV", "PROD")] [("etc/service.yml", serviceYml)]) {}
          = .ok s' ∧ s'.data.Env = "prod" ∧ s'.data.Env ≠ "PROD") ∧
    (Getenv (demoWorld [("PORT", "8080")] []) envPort = "8080" ∧
      ∃ s', initServiceConfig (demoWorld [("PORT", "8080")] []) {} = .ok s' ∧
        s'.data.HTTP.Port = "" ∧ s'.data.HTTP.Port ≠ "8080") :=
  ⟨⟨rfl, _, rfl, rfl, by decide⟩, ⟨rfl, _, rfl, rfl, by decide⟩⟩

/-- C3, amended: when a base-file path is found and the resolution completes,
every string override variable (ENV, PORT, REDIS_HOST, REDIS_PORT, DB_HOST,
DB_PORT, DB_USERNAME, DB_PASSWORD, LOGIN_PRIVATE_KEY, LOGIN_PUBLIC_KEY) set to a
non-empty value `v` determines its field whatever the files said: the field is
`v`, except `Env`, which is the lower-case form of `v`. -/
theorem initServiceConfig_env_wins (w : World) (s s' : ServiceConfig) (f : Field)
    (name v : String) (hp : getServiceConfigPath w ≠ "")
    (hok : initServiceConfig w s = .ok s') (hf : f.envVar = some name)
    (hnum : f.isNumericOverride = false) (hv : Getenv w name = v) (hne : v ≠ "") :
    f.get s'.data = .str (if f = .Env then ToLower w v else v) := by
  obtain ⟨s1, s2, -, -, rfl⟩ := initServiceConfig_ok w s s' hp hok
  rw [parseEnv_get]
  subst hv
  cases f <;> simp [Field.envVar, Field.isNumericOverride] at hf hnum <;> subst hf <;>
    simp [Field.overlay, Field.envVar, ToLower_eq_empty, hne]

/-- C3, amended, with a base file present, `ENV=PROD` and the field `Env`. -/
theorem initServiceConfig_env_wins_witness :
    Field.get .Env
        (parseEnv (demoWorld [("ENV", "PROD")] [("etc/service.yml", serviceYml)])
          ⟨expectedService⟩).data =
      .str (if Field.Env = .Env then
        ToLower (demoWorld [("ENV", "PROD")] [("etc/service.yml", serviceYml)]) "PROD"
        else "PROD") :=
  initServiceConfig_env_wins (demoWorld [("ENV", "PROD")] [("etc/service.yml", serviceYml)])
    {} _ .Env "ENV" "PROD" (by decide) rfl rfl rfl rfl (by decide)

end serviceconfig

namespace serviceconfig

/-! ## C4, C5: the numeric overrides -/

/-- Go `strconv.Atoi` returns 0 (with a syntax error) on anything that is not a
decimal integer literal. -/
theorem Atoi_of_not_literal (v : String) (h : isDecimalLiteral v = false) :
    Atoi v = (0, true) := by
  unfold isDecimalLiteral at h
  unfold Atoi
  split at h <;> rename_i heq <;> simp only [heq] <;> simp_all

/-- C4: when ACCESS_TOKEN_EXPIRATION_MILLIS (resp. REFRESH_TOKEN_EXPIRATION_MILLIS)
is `"0"` or is not a decimal integer literal, `parseEnv` leaves the corresponding
expiration field as it was. -/
theorem parseEnv_ignores_zero_and_non_literal (w : World) (s : ServiceConfig) (f : Field)
    (name v : String) (hnum : f.isNumericOverride = true) (hf : f.envVar = some name)
    (hv : Getenv w name = v) (h : v = "0" ∨ isDecimalLiteral v = false) :
    f.get (parseEnv w s).data = f.get s.data := by
  have hz : (Atoi v).1 = 0 := by
    rcases h with h | h
    · subst h; decide
    · rw [Atoi_of_not_literal v h]
  rw [parseEnv_get]
  subst hv
  cases f <;> simp [Field.isNumericOverride] at hnum <;>
    simp only [Field.envVar, Option.some.injEq] at hf <;> subst hf <;>
    simp [Field.overlay, hz]

/-- C4 with ACCESS_TOKEN_EXPIRATION_MILLIS set to `abc`. -/
theorem parseEnv_ignores_zero_and_non_literal_witness :
    Field.get .AuthAccessTokenExpirationMillis
        (parseEnv (demoWorld [("ACCESS_TOKEN_EXPIRATION_MILLIS", "abc")] [])
          ⟨expectedService⟩).data =
      Field.get .AuthAccessTokenExpirationMillis expectedService :=
  parseEnv_ignores_zero_and_non_literal
    (demoWorld [("ACCESS_TOKEN_EXPIRATION_MILLIS", "abc")] []) ⟨expectedService⟩
    .AuthAccessTokenExpirationMillis "ACCESS_TOKEN_EXPIRATION_MILLIS" "abc" rfl rfl rfl
    (Or.inr (by decide))

/-- C5 fails on the code: for ACCESS_TOKEN_EXPIRATION_MILLIS set to
`99999999999999999999` the integer parsing fails with a range error, yet the value
it returns is the largest `int64`, which is not zero, so `parseEnv` overwrites the
field (300000 before) with `uint32` of it, 4294967295. -/
theorem parseEnv_overwrites_on_range_error :
    (Atoi "99999999999999999999") = ((2 : Int) ^ 63 - 1, true) ∧
      expectedService.Auth.AccessTokenExpirationMillis = 300000 ∧
      (parseEnv (demoWorld [("ACCESS_TOKEN_EXPIRATION_MILLIS", "99999999999999999999")] [])
          ⟨expectedService⟩).data.Auth.AccessTokenExpirationMillis = 4294967295 := by
  decide

end serviceconfig

namespace serviceconfig

/-! ## C6: validity of the port fields -/

/-- A completed resolution keeps the HTTP port valid when it starts from a valid
one and the PORT variable, if set, holds a valid port. -/
theorem initServiceConfig_port (w : World) (s s' : ServiceConfig)
    (hs : isValidPort s.data.HTTP.Port = true)
    (henv : isValidPort (Getenv w envPort) = true)
    (hok : initServiceConfig w s = .ok s') :
    isValidPort s'.data.HTTP.Port = true := by
  by_cases hp : getServiceConfigPath w = ""
  · unfold initServiceConfig at hok
    simp only [hp, if_true, Except.ok.injEq] at hok
    subst hok; exact hs
  · obtain ⟨s1, s2, h1, h2, rfl⟩ := initServiceConfig_ok w s s' hp hok
    have hv1 := parseServiceConfig_port w _ s s1 hs h1
    have hv2 : isValidPort s2.data.HTTP.Port = true := by
      by_cases hq : getLocalhostConfigPath w = ""
      · simp only [hq, ne_eq, not_true_eq_false, if_false, Except.ok.injEq] at h2
        subst h2; exact hv1
      · simp only [hq, ne_eq, not_false_eq_true, if_true] at h2
        exact parseServiceConfig_port w _ s1 s2 hv1 h2
    have hget := parseEnv_get w s2 .HTTPPort
    simp only [Field.get, Field.overlay, Field.envVar, Value.str.injEq] at hget
    by_cases hport : Getenv w envPort = ""
    · simp only [hport, ne_eq, not_true_eq_false, if_false, Value.str.injEq] at hget
      rw [hget]; exact hv2
    · simp only [hport, ne_eq, not_false_eq_true, if_true, Value.str.injEq] at hget
      rw [hget]; exact henv

/-- C6, as stated, fails: with a valid base file and `PORT=99999` the resolution
completes with HTTP port `99999`; and a base file that sets the database port to
`99999` is accepted as it is. Neither passes `isValidPort`. -/
theorem initServiceConfig_invalid_ports :
    (∃ s', init (demoWorld [("PORT", "99999")] [("etc/service.yml", serviceYml)]) = .ok s' ∧
      s'.data.HTTP.Port = "99999" ∧ isValidPort s'.data.HTTP.Port = false) ∧
    (∃ s', init (demoWorld [] [("etc/service.yml", badDatabasePortYml)]) = .ok s' ∧
      s'.data.Database.Port = "99999" ∧ isValidPort s'.data.Database.Port = false) :=
  ⟨⟨_, rfl, rfl, by decide⟩, ⟨_, rfl, rfl, by decide⟩⟩

/-- C6, amended: for every resolution from the zero record that completes without
aborting, in an environment whose PORT variable is unset, empty or a valid port,
the HTTP port of the resolved record satisfies `isValidPort`. -/
theorem init_http_port_valid (w : World) (s' : ServiceConfig)
    (henv : isValidPort (Getenv w envPort) = true) (hok : init w = .ok s') :
    isValidPort s'.data.HTTP.Port = true :=
  initServiceConfig_port w _ s' (by decide) henv hok

/-- C6, amended, in the setting of `TestInitializeServiceConfigLocalhost`. -/
theorem init_http_port_valid_witness :
    init localhostWorld = .ok ⟨expectedLocalhost⟩ ∧
      isValidPort expectedLocalhost.HTTP.Port = true :=
  ⟨rfl, init_http_port_valid localhostWorld ⟨expectedLocalhost⟩ (by decide) rfl⟩

end serviceconfig

namespace serviceconfig

/-! ## C7: lower-casing of `Env` -/

theorem toNat_ofNat_upper (n : Nat) (h1 : 65 ≤ n) (h2 : n ≤ 90) :
    (Char.ofNat (n + 32)).toNat = n + 32 := by
  interval_cases n <;> rfl

/-- On ASCII the lower-case form is ASCII and is its own lower-case form. -/
theorem toLower_ascii (c : Char) (h : c.toNat < 128) :
    c.toLower.toNat < 128 ∧ c.toLower.toLower = c.toLower := by
  by_cases hc : 65 ≤ c.toNat ∧ c.toNat ≤ 90
  · have e : c.toLower = Char.ofNat (c.toNat + 32) := by
      simp [Char.toLower, hc]
    have hn := toNat_ofNat_upper c.toNat hc.1 hc.2
    rw [e]
    constructor
    · omega
    · have : ¬ (65 ≤ (Char.ofNat (c.toNat + 32)).toNat ∧
          (Char.ofNat (c.toNat + 32)).toNat ≤ 90) := by omega
      simp only [Char.toLower, ge_iff_le, this, if_false]
  · have e : c.toLower = c := by
      simp only [Char.toLower, ge_iff_le, hc, if_false]
    rw [e, e]
    exact ⟨h, rfl⟩

/-- Go `strings.ToLower` is idempotent as soon as the case table outside ASCII maps
every character to one that lower-casing leaves alone. -/
theorem ToLower_idem (w : World)
    (htable : ∀ c, 128 ≤ c.toNat → toLowerRune w (w.unicodeToLower c) = w.unicodeToLower c)
    (s : String) : ToLower w (ToLower w s) = ToLower w s := by
  have hrune : ∀ c, toLowerRune w (toLowerRune w c) = toLowerRune w c := by
    intro c
    by_cases hc : c.toNat < 128
    · have h := toLower_ascii c hc
      simp only [toLowerRune, hc, if_true, h.1, h.2]
    · have e : toLowerRune w c = w.unicodeToLower c := by
        simp only [toLowerRune, hc, if_false]
      rw [e]
      exact htable c (by omega)
  have hcomp : toLowerRune w ∘ toLowerRune w = toLowerRune w := funext hrune
  simp [ToLower, hcomp]

/-- The scenario worlds have the identity as case table outside ASCII. -/
theorem demoWorld_table (vars : List (String × String)) (files : List (String × List UInt8))
    (c : Char) (hc : 128 ≤ c.toNat) :
    toLowerRune (demoWorld vars files) ((demoWorld vars files).unicodeToLower c) =
      (demoWorld vars files).unicodeToLower c := by
  show toLowerRune (demoWorld vars files) c = c
  unfold toLowerRune
  rw [if_neg (by omega)]
  rfl

/-- C7, as stated, fails: a base file that sets `env` to `TEST`, with ENV unset,
resolves to `Env = "TEST"`, whose lower-case form is `test`. -/
theorem initServiceConfig_env_from_file_not_lowered :
    ∃ s', initServiceConfig (demoWorld [] [("etc/service.yml", upperEnvYml)]) {} = .ok s' ∧
      s'.data.Env = "TEST" ∧
      ToLower (demoWorld [] [("etc/service.yml", upperEnvYml)]) s'.data.Env ≠ s'.data.Env :=
  ⟨_, rfl, rfl, by decide⟩

/-- C7, amended: when a base-file path is found, the resolution completes and the
ENV variable is set to a non-empty value, the `Env` field of the resolved record
is the lower-case form of that value, and so equals its own lower-case form
(the case table outside ASCII mapping every character to one that lower-casing
leaves alone). -/
theorem initServiceConfig_env_lowered (w : World) (s s' : ServiceConfig)
    (htable : ∀ c, 128 ≤ c.toNat → toLowerRune w (w.unicodeToLower c) = w.unicodeToLower c)
    (hp : getServiceConfigPath w ≠ "") (hok : initServiceConfig w s = .ok s')
    (henv : Getenv w envEnv ≠ "") :
    s'.data.Env = ToLower w (Getenv w envEnv) ∧ ToLower w s'.data.Env = s'.data.Env := by
  obtain ⟨s1, s2, -, -, rfl⟩ := initServiceConfig_ok w s s' hp hok
  have hget := parseEnv_get w s2 .Env
  simp only [Field.get, Field.overlay, ne_eq, ToLower_eq_empty, henv, not_false_eq_true,
    if_true, Value.str.injEq] at hget
  rw [hget]
  exact ⟨rfl, ToLower_idem w htable _⟩

/-- C7, amended, with a base file present and `ENV=PROD`. -/
theorem initServiceConfig_env_lowered_witness :
    (parseEnv (demoWorld [("ENV", "PROD")] [("etc/service.yml", serviceYml)])
        ⟨expectedService⟩).data.Env = "prod" ∧
      ToLower (demoWorld [("ENV", "PROD")] [("etc/service.yml", serviceYml)]) "prod" = "prod" :=
  initServiceConfig_env_lowered (demoWorld [("ENV", "PROD")] [("etc/service.yml", serviceYml)])
    {} (parseEnv (demoWorld [("ENV", "PROD")] [("etc/service.yml", serviceYml)])
        ⟨expectedService⟩)
    (demoWorld_table _ _) (by decide) rfl (by decide)

end serviceconfig

namespace serviceconfig

/-! ## C8: an invalid HTTP port in the base file aborts the resolution -/

/-- A path selects a decoder exactly when its suffix is `json` (the JSON decoder)
or `yaml` or `yml` (the YAML decoder). -/
theorem decoderOf_eq_some_iff (w : World) (p : String) (dec : Unmarshal) :
    decoderOf w p = some dec ↔
      (getSuffix p = .ok "json" ∧ dec = w.jsonUnmarshal) ∨
        ((getSuffix p = .ok "yaml" ∨ getSuffix p = .ok "yml") ∧ dec = w.yamlUnmarshal) := by
  unfold decoderOf
  cases hsuf : getSuffix p with
  | error e => simp
  | ok suffix =>
    by_cases hj : suffix = "json"
    · subst hj
      simp [eq_comm]
    · by_cases hy : suffix = "yaml" ∨ suffix = "yml"
      · simp [hj, hy, eq_comm]
      · simp only [hj, hy, if_false, Except.ok.injEq, false_and, false_or]
        simp only [not_or] at hy
        simp [hy.1, hy.2]

/-- A file that is read and dispatched to `dec` aborts the process when `dec`
leaves an invalid HTTP port. -/
theorem parseServiceConfig_invalid_port (w : World) (p : String) (s : ServiceConfig)
    (data : List UInt8) (dec : Unmarshal) (hr : w.readFile p = some data)
    (hd : decoderOf w p = some dec)
    (hbad : isValidPort (dec data s.data).data.HTTP.Port = false) :
    parseServiceConfig w p s = .error "invalid port number" := by
  unfold parseServiceConfig
  unfold decoderOf at hd
  rw [hr]
  cases hsuf : getSuffix p with
  | error e => rw [hsuf] at hd; simp at hd
  | ok suffix =>
    rw [hsuf] at hd
    simp only at hd ⊢
    by_cases hj : suffix = "json"
    · simp only [hj, if_true, Option.some.injEq] at hd ⊢
      subst hd
      rw [parseJSON_eq, hbad]; simp
    · simp only [hj, if_false] at hd ⊢
      by_cases hy : suffix = "yaml" ∨ suffix = "yml"
      · simp only [hy, if_true, Option.some.injEq] at hd ⊢
        subst hd
        rw [parseYAML_eq, hbad]; simp
      · simp [hy] at hd

/-- C8: if the base file is found and read, its suffix is `json`, `yaml` or `yml`
(so that it selects a decoder, see `decoderOf_eq_some_iff`), and that decoder
leaves an HTTP port that is not a valid port, then `initServiceConfig` aborts, whatever the local-override file and the
environment (the PORT variable included) hold. -/
theorem initServiceConfig_aborts_on_invalid_port (w : World) (s : ServiceConfig)
    (data : List UInt8) (dec : Unmarshal) (hp : getServiceConfigPath w ≠ "")
    (hr : w.readFile (getServiceConfigPath w) = some data)
    (hd : decoderOf w (getServiceConfigPath w) = some dec)
    (hbad : isValidPort (dec data s.data).data.HTTP.Port = false) :
    (∃ e, initServiceConfig w s = .error e) ∧ ∀ s', initServiceConfig w s ≠ .ok s' := by
  have hparse := parseServiceConfig_invalid_port w _ s data dec hr hd hbad
  have hinit : initServiceConfig w s = .error "invalid port number" := by
    unfold initServiceConfig
    simp only [hp, if_false]
    rw [hparse]
  rw [hinit]
  exact ⟨⟨_, rfl⟩, fun s' h => by simp at h⟩

/-- C8 for a base file `etc/service.yml` that sets the HTTP port to `99999`, with
`PORT=8080` in the environment. -/
theorem initServiceConfig_aborts_on_invalid_port_witness :
    isValidPort "8080" = true ∧
      Getenv (demoWorld [("PORT", "8080")] [("etc/service.yml", badPortYml)]) envPort = "8080" ∧
      (∃ e, initServiceConfig (demoWorld [("PORT", "8080")] [("etc/service.yml", badPortYml)]) {}
        = .error e) :=
  ⟨by decide, rfl,
   (initServiceConfig_aborts_on_invalid_port
    (demoWorld [("PORT", "8080")] [("etc/service.yml", badPortYml)]) {} badPortYml
    demoUnmarshal (by decide) rfl rfl (by decide)).1⟩

end serviceconfig

namespace serviceconfig

/-! ## C9: when the decoders abort -/

/-- C9: `parseJSON` aborts exactly when `json.Unmarshal` fails or the HTTP port it
leaves is not a valid port, and otherwise returns exactly the decoded record; the
same holds of `parseYAML` and `yaml.Unmarshal`. -/
theorem parseJSON_parseYAML_abort_iff (w : World) (data : List UInt8) (s : ServiceConfig) :
    (((∃ e, parseJSON w data s = .error e) ↔
        ((w.jsonUnmarshal data s.data).err = true ∨
          isValidPort (w.jsonUnmarshal data s.data).data.HTTP.Port = false)) ∧
      (parseJSON w data s = .ok ⟨(w.jsonUnmarshal data s.data).data⟩ ↔
        ((w.jsonUnmarshal data s.data).err = false ∧
          isValidPort (w.jsonUnmarshal data s.data).data.HTTP.Port = true))) ∧
    (((∃ e, parseYAML w data s = .error e) ↔
        ((w.yamlUnmarshal data s.data).err = true ∨
          isValidPort (w.yamlUnmarshal data s.data).data.HTTP.Port = false)) ∧
      (parseYAML w data s = .ok ⟨(w.yamlUnmarshal data s.data).data⟩ ↔
        ((w.yamlUnmarshal data s.data).err = false ∧
          isValidPort (w.yamlUnmarshal data s.data).data.HTTP.Port = true))) := by
  rw [parseJSON_eq, parseYAML_eq]
  refine ⟨?_, ?_⟩
  · cases isValidPort (w.jsonUnmarshal data s.data).data.HTTP.Port <;>
      cases (w.jsonUnmarshal data s.data).err <;> simp
  · cases isValidPort (w.yamlUnmarshal data s.data).data.HTTP.Port <;>
      cases (w.yamlUnmarshal data s.data).err <;> simp

/-! ## C10: no base file -/

/-- C10: when `service_config_path` is unset or empty and none of
`etc/service.json`, `etc/service.yaml`, `etc/service.yml` exists,
`initServiceConfig` does not abort and returns the record it was given. -/
theorem initServiceConfig_no_base_file (w : World) (s : ServiceConfig)
    (henv : Getenv w serviceConfigPath = "")
    (hjson : checkFileExist w "etc/service.json" = false)
    (hyaml : checkFileExist w "etc/service.yaml" = false)
    (hyml : checkFileExist w "etc/service.yml" = false) :
    initServiceConfig w s = .ok s := by
  have e1 : pathJoin "etc" (defaultConfigPath ++ ".json") = "etc/service.json" := by decide
  have e2 : pathJoin "etc" (defaultConfigPath ++ ".yaml") = "etc/service.yaml" := by decide
  have e3 : pathJoin "etc" (defaultConfigPath ++ ".yml") = "etc/service.yml" := by decide
  have hpath : getServiceConfigPath w = "" := by
    unfold getServiceConfigPath getDefaultServiceConfigPath
    simp only [henv, ne_eq, not_true_eq_false, if_false, e1, e2, e3]
    simp [List.find?, hjson, hyaml, hyml]
  unfold initServiceConfig
  simp only [hpath, if_true]

/-- C10 with an empty file system, some variables set, and the record of the test
suite as the pre-seeded one. -/
theorem initServiceConfig_no_base_file_witness :
    initServiceConfig (demoWorld [("PORT", "8080"), ("ENV", "live")] []) ⟨expectedService⟩ =
      .ok ⟨expectedService⟩ :=
  initServiceConfig_no_base_file (demoWorld [("PORT", "8080"), ("ENV", "live")] [])
    ⟨expectedService⟩ rfl rfl rfl rfl

end serviceconfig

namespace serviceconfig

/-! ## C11: locating the two files -/

/-- The default search, spelled out for a base name. -/
theorem getDefaultServiceConfigPath_eq (w : World) (fileName : String) :
    getDefaultServiceConfigPath w fileName =
      if checkFileExist w (pathJoin "etc" (fileName ++ ".json")) = true then
        pathJoin "etc" (fileName ++ ".json")
      else if checkFileExist w (pathJoin "etc" (fileName ++ ".yaml")) = true then
        pathJoin "etc" (fileName ++ ".yaml")
      else if checkFileExist w (pathJoin "etc" (fileName ++ ".yml")) = true then
        pathJoin "etc" (fileName ++ ".yml")
      else "" := by
  unfold getDefaultServiceConfigPath
  cases h1 : checkFileExist w (pathJoin "etc" (fileName ++ ".json")) <;>
    cases h2 : checkFileExist w (pathJoin "etc" (fileName ++ ".yaml")) <;>
    cases h3 : checkFileExist w (pathJoin "etc" (fileName ++ ".yml")) <;>
    simp [List.find?, h1, h2, h3]

/-- C11: `getServiceConfigPath` returns `service_config_path` as it is when that
variable is not empty (no existence check), and otherwise the first of
`etc/service.json`, `etc/service.yaml`, `etc/service.yml` that exists, or the empty
string; `getLocalhostConfigPath` does the same with
`localhost_service_config_path` and the base name `localhost_service`. -/
theorem getServiceConfigPath_getLocalhostConfigPath_eq (w : World) :
    getServiceConfigPath w =
        (if Getenv w "service_config_path" ≠ "" then Getenv w "service_config_path"
         else if checkFileExist w "etc/service.json" = true then "etc/service.json"
         else if checkFileExist w "etc/service.yaml" = true then "etc/service.yaml"
         else if checkFileExist w "etc/service.yml" = true then "etc/service.yml"
         else "") ∧
      getLocalhostConfigPath w =
        (if Getenv w "localhost_service_config_path" ≠ "" then
           Getenv w "localhost_service_config_path"
         else if checkFileExist w "etc/localhost_service.json" = true then
           "etc/localhost_service.json"
         else if checkFileExist w "etc/localhost_service.yaml" = true then
           "etc/localhost_service.yaml"
         else if checkFileExist w "etc/localhost_service.yml" = true then
           "etc/localhost_service.yml"
         else "") := by
  have e1 : pathJoin "etc" (defaultConfigPath ++ ".json") = "etc/service.json" := by decide
  have e2 : pathJoin "etc" (defaultConfigPath ++ ".yaml") = "etc/service.yaml" := by decide
  have e3 : pathJoin "etc" (defaultConfigPath ++ ".yml") = "etc/service.yml" := by decide
  have l1 : pathJoin "etc" (localhostDefaultConfigPath ++ ".json") =
      "etc/localhost_service.json" := by decide
  have l2 : pathJoin "etc" (localhostDefaultConfigPath ++ ".yaml") =
      "etc/localhost_service.yaml" := by decide
  have l3 : pathJoin "etc" (localhostDefaultConfigPath ++ ".yml") =
      "etc/localhost_service.yml" := by decide
  have c1 : serviceConfigPath = "service_config_path" := rfl
  have c2 : localhostConfigPath = "localhost_service_config_path" := rfl
  constructor
  · unfold getServiceConfigPath
    rw [getDefaultServiceConfigPath_eq, e1, e2, e3, c1]
  · unfold getLocalhostConfigPath
    rw [getDefaultServiceConfigPath_eq, l1, l2, l3, c2]

/-! ## C12: dispatch on the suffix -/

/-- C12: for a readable file, `parseServiceConfig` is `parseJSON` when the suffix
is exactly `json`, `parseYAML` when it is exactly `yaml` or `yml`, and for any
other suffix it returns the record unchanged without aborting. -/
theorem parseServiceConfig_dispatch (w : World) (p : String) (data : List UInt8)
    (s : ServiceConfig) (suffix : String) (hr : w.readFile p = some data)
    (hsuf : getSuffix p = .ok suffix) :
    parseServiceConfig w p s =
      if suffix = "json" then parseJSON w data s
      else if suffix = "yaml" ∨ suffix = "yml" then parseYAML w data s
      else .ok s := by
  unfold parseServiceConfig
  rw [hr, hsuf]

/-- C12 on three files read by the scenario decoder: `etc/service.yml` is decoded,
while `etc/service.JSON` and the dot-free `etc/service` are left unparsed. -/
theorem parseServiceConfig_dispatch_witness :
    parseServiceConfig (demoWorld [] [("etc/service.yml", serviceYml)]) "etc/service.yml" {} =
        parseYAML (demoWorld [] [("etc/service.yml", serviceYml)]) serviceYml {} ∧
      parseServiceConfig (demoWorld [] [("etc/service.JSON", serviceYml)])
        "etc/service.JSON" {} = .ok {} ∧
      parseServiceConfig (demoWorld [] [("etc/service", serviceYml)]) "etc/service" {} = .ok {} :=
  ⟨parseServiceConfig_dispatch (demoWorld [] [("etc/service.yml", serviceYml)])
      "etc/service.yml" serviceYml {} "yml" rfl rfl,
   parseServiceConfig_dispatch (demoWorld [] [("etc/service.JSON", serviceYml)])
      "etc/service.JSON" serviceYml {} "JSON" rfl rfl,
   parseServiceConfig_dispatch (demoWorld [] [("etc/service", serviceYml)])
      "etc/service" serviceYml {} "etc/service" rfl rfl⟩

end serviceconfig

namespace serviceconfig

/-! ## C13: `getSuffix` -/

/-- The pieces produced by splitting end with a piece free of separators, which
is the whole text (behind what was accumulated) when no separator occurs, and
what follows the last separator otherwise. -/
theorem splitOnP_go_last {α : Type} (P : α → Bool) (l acc : List α) :
    ∃ front last, List.splitOnP.go P l acc = front ++ [last] ∧
      ((front = [] ∧ last = acc.reverse ++ l ∧ ∀ x ∈ l, P x = false) ∨
        (front ≠ [] ∧ (∀ x ∈ last, P x = false) ∧
          ∃ pre sep, P sep = true ∧ l = pre ++ sep :: last)) := by
  induction l generalizing acc with
  | nil =>
    exact ⟨[], acc.reverse, by simp [List.splitOnP.go], Or.inl ⟨rfl, by simp, by simp⟩⟩
  | cons a t ih =>
    by_cases ha : P a = true
    · obtain ⟨front, last, hgo, h⟩ := ih []
      refine ⟨acc.reverse :: front, last, by simp [List.splitOnP.go, ha, hgo], Or.inr ?_⟩
      rcases h with ⟨-, hl, hall⟩ | ⟨-, hall, pre, sep, hsep, ht⟩
      · refine ⟨by simp, ?_, [], a, ha, ?_⟩
        · intro x hx
          rw [hl] at hx
          simp only [List.reverse_nil, List.nil_append] at hx
          exact hall x hx
        · simp [hl]
      · exact ⟨by simp, hall, a :: pre, sep, hsep, by simp [ht]⟩
    · have ha' : P a = false := by simpa using ha
      obtain ⟨front, last, hgo, h⟩ := ih (a :: acc)
      refine ⟨front, last, by simp [List.splitOnP.go, ha', hgo], ?_⟩
      rcases h with ⟨hf, hl, hall⟩ | ⟨hf, hall, pre, sep, hsep, ht⟩
      · refine Or.inl ⟨hf, by simp [hl], ?_⟩
        intro x hx
        rcases List.mem_cons.mp hx with rfl | hx
        · exact ha'
        · exact hall x hx
      · exact Or.inr ⟨hf, hall, a :: pre, sep, hsep, by simp [ht]⟩

/-- The index expression of `getSuffix` is always in range, and what it yields is
the last piece of the split. -/
theorem getSuffix_eq (p : String) (front : List (List Char)) (last : List Char)
    (h : p.data.splitOn '.' = front ++ [last]) : getSuffix p = .ok ⟨last⟩ := by
  unfold getSuffix Split
  simp [h]

/-- C13: `getSuffix` never fails, and its result is what follows the last `.` of
the path: it contains no `.`, the path is some text, a `.` and the result when the
path contains a `.`, and the result is the whole path when it contains none. In
particular the suffix of `a/b/service.yml` is `yml` and that of `nam.json` is
`json`. -/
theorem getSuffix_spec :
    (∀ p : String, ∃ suffix, getSuffix p = .ok suffix ∧ '.' ∉ suffix.data ∧
      (('.' ∈ p.data ∧ ∃ pre : String, p = pre ++ "." ++ suffix) ∨
        ('.' ∉ p.data ∧ suffix = p))) ∧
      getSuffix "a/b/service.yml" = .ok "yml" ∧ getSuffix "nam.json" = .ok "json" := by
  refine ⟨?_, rfl, rfl⟩
  intro p
  obtain ⟨front, last, hgo, h⟩ := splitOnP_go_last (fun c => c == '.') p.data []
  have hsplit : p.data.splitOn '.' = front ++ [last] := hgo
  refine ⟨⟨last⟩, getSuffix_eq p front last hsplit, ?_, ?_⟩
  · rcases h with ⟨-, hl, hall⟩ | ⟨-, hall, -⟩
    · intro hmem
      have := hall '.' (by simpa [hl] using hmem)
      simp at this
    · intro hmem
      have := hall '.' hmem
      simp at this
  · rcases h with ⟨-, hl, hall⟩ | ⟨-, hall, pre, sep, hsep, hp⟩
    · right
      refine ⟨?_, ?_⟩
      · intro hmem
        have := hall '.' hmem
        simp at this
      · apply String.ext
        simp [hl]
    · left
      have hsep' : sep = '.' := by simpa using hsep
      subst hsep'
      refine ⟨by rw [hp]; simp, ⟨pre⟩, ?_⟩
      apply String.ext
      simp [hp]

end serviceconfig

namespace serviceconfig

/-! ## C14: the two formats -/

/-- Every field carries the same name in its `json` and in its `yaml` tag. -/
theorem jsonTag_eq_yamlTag : Field.jsonTag = Field.yamlTag := by
  funext f
  cases f <;> rfl

theorem foldl_congr_mem {α β : Type} (f g : β → α → β) (l : List α)
    (h : ∀ x ∈ l, ∀ b, f b x = g b x) (b : β) : l.foldl f b = l.foldl g b := by
  induction l generalizing b with
  | nil => rfl
  | cons x xs ih =>
    simp only [List.foldl_cons]
    rw [h x (List.mem_cons_self _ _) b]
    exact ih (fun y hy => h y (List.mem_cons_of_mem _ hy)) _

/-- A key that is spelled exactly stands for the same name in both libraries. -/
theorem resolve_eq (equalFold : String → String → Bool) (names : List String) (k : String)
    (h : ∀ t ∈ names, equalFold t k = true → t = k) :
    (jsonCodec equalFold).resolve names k = yamlCodec.resolve names k := by
  unfold Codec.resolve
  by_cases hk : k ∈ names
  · simp [hk]
  · have h1 : names.find? (fun t => (jsonCodec equalFold).looseKey t k) = none := by
      rw [List.find?_eq_none]
      intro t ht hfold
      have : t = k := h t ht hfold
      exact hk (this ▸ ht)
    have h2 : names.find? (fun t => yamlCodec.looseKey t k) = none := by
      rw [List.find?_eq_none]
      intro t _ hfalse
      simp [yamlCodec] at hfalse
    simp [hk, h1, h2]

/-- In the YAML library a key stands for itself or for nothing. -/
theorem yaml_resolve (names : List String) (k t : String)
    (h : yamlCodec.resolve names k = some t) : t = k := by
  unfold Codec.resolve at h
  by_cases hk : k ∈ names
  · simp [hk] at h
    exact h.symm
  · have h2 : names.find? (fun t => yamlCodec.looseKey t k) = none := by
      rw [List.find?_eq_none]
      intro t _ hfalse
      simp [yamlCodec] at hfalse
    simp [hk, h2] at h

theorem topNames_subset (equalFold : String → String → Bool) (t : String)
    (ht : t ∈ (jsonCodec equalFold).topNames) : t ∈ tagNames := by
  simp only [Codec.topNames, jsonCodec, List.mem_map] at ht
  obtain ⟨f, -, rfl⟩ := ht
  cases f <;> decide

theorem leafNames_subset (equalFold : String → String → Bool) (s l : String)
    (hl : l ∈ (jsonCodec equalFold).leafNames s) : l ∈ tagNames := by
  simp only [Codec.leafNames, jsonCodec, List.mem_filterMap] at hl
  obtain ⟨f, -, hf⟩ := hl
  cases f <;> simp only [Field.jsonTag] at hf <;>
    first
    | cases hf
    | (split at hf <;> first | (cases hf; decide) | cases hf)

/-- On a value that is not a number for a string field the two libraries store
the same thing. -/
theorem assign_eq (equalFold : String → String → Bool) (f : Field) (v : Value)
    (acc : Unmarshalled) (h : ∀ n, v = .num n → f.isNumber = true) :
    (jsonCodec equalFold).assign f v acc = yamlCodec.assign f v acc := by
  cases v with
  | str x => cases f <;> rfl
  | num n =>
    have hn := h n rfl
    cases f <;> simp [Field.isNumber] at hn <;>
      simp only [Codec.assign, Field.set, jsonCodec, yamlCodec] <;> split <;> simp_all

theorem fieldAt_eq (equalFold : String → String → Bool) (path : List String) :
    (jsonCodec equalFold).fieldAt path = yamlCodec.fieldAt path := by
  simp [Codec.fieldAt, jsonCodec, yamlCodec, jsonTag_eq_yamlTag]

theorem leafNames_eq (equalFold : String → String → Bool) (t : String) :
    (jsonCodec equalFold).leafNames t = yamlCodec.leafNames t := by
  simp [Codec.leafNames, jsonCodec, yamlCodec, jsonTag_eq_yamlTag]

theorem topNames_eq (equalFold : String → String → Bool) :
    (jsonCodec equalFold).topNames = yamlCodec.topNames := by
  simp [Codec.topNames, jsonCodec, yamlCodec, jsonTag_eq_yamlTag]

/-- The value found by `typedAt` is the field both libraries store into. -/
theorem typed_of_fieldAt (path : List String) (v : Value) (f : Field)
    (ht : typedAt path v = true) (hf : yamlCodec.fieldAt path = some f) :
    ∀ n, v = .num n → f.isNumber = true := by
  intro n hv
  subst hv
  have hf2 : Field.all.find? (fun f => f.jsonTag == path) = some f := by
    rw [jsonTag_eq_yamlTag]
    exact hf
  simpa [typedAt, hf2] using ht

/-- The two libraries decode a section alike when its keys are spelled exactly,
none is repeated and no string field is given a number. -/
theorem decodeSection_eq (equalFold : String → String → Bool) (t : String)
    (entries : List (String × Value)) (acc : Unmarshalled)
    (hnames : ∀ x ∈ entries, ∀ n ∈ tagNames, equalFold n x.1 = true → n = x.1)
    (huniq : hasRepeat (entries.map Prod.fst) = false)
    (htyped : ∀ x ∈ entries, typedAt [t, x.1] x.2 = true) :
    (jsonCodec equalFold).decodeSection t entries acc =
      yamlCodec.decodeSection t entries acc := by
  unfold Codec.decodeSection
  have hju : (jsonCodec equalFold).uniqueKeys = false := rfl
  simp only [hju, huniq, Bool.false_and, Bool.and_false, Bool.false_eq_true, if_false]
  apply foldl_congr_mem
  intro x hx b
  have hres : (jsonCodec equalFold).resolve ((jsonCodec equalFold).leafNames t) x.1 =
      yamlCodec.resolve (yamlCodec.leafNames t) x.1 := by
    rw [← leafNames_eq equalFold t]
    exact resolve_eq equalFold _ _
      (fun n hn => hnames x hx n (leafNames_subset equalFold t n hn))
  rw [hres]
  cases hr : yamlCodec.resolve (yamlCodec.leafNames t) x.1 with
  | none => rfl
  | some l =>
    have hl : l = x.1 := yaml_resolve _ _ _ hr
    subst hl
    simp only [fieldAt_eq equalFold]
    cases hf : yamlCodec.fieldAt [t, x.1] with
    | none => rfl
    | some f =>
      exact assign_eq equalFold f x.2 b (typed_of_fieldAt _ _ f (htyped x hx) hf)

theorem mem_keys_top (d : Doc) (e : String × Node) (he : e ∈ d) : e.1 ∈ d.keys := by
  unfold Doc.keys
  exact List.mem_append_left _ (List.mem_map_of_mem _ he)

theorem mem_keys_nested (d : Doc) (e : String × Node) (entries : List (String × Value))
    (x : String × Value) (he : e ∈ d) (hm : e.2 = .mapping entries) (hx : x ∈ entries) :
    x.1 ∈ d.keys := by
  unfold Doc.keys
  apply List.mem_append_right
  rw [List.mem_flatMap]
  exact ⟨e, he, by rw [hm]; exact List.mem_map_of_mem _ hx⟩

/-- The two libraries decode alike a file whose keys are spelled exactly, none of
them repeated within a mapping, and in which no string field is given a number. -/
theorem decode_eq (equalFold : String → String → Bool) (d : Doc) (r : serviceConfig)
    (hnames : d.exactNames equalFold = true) (huniq : d.uniqueNames = true)
    (htyped : d.noNumberForString = true) :
    (jsonCodec equalFold).decode (some d) r = yamlCodec.decode (some d) r := by
  have hkey : ∀ k ∈ d.keys, ∀ n ∈ tagNames, equalFold n k = true → n = k := by
    intro k hk n hn hfold
    have h := hnames
    simp only [Doc.exactNames, List.all_eq_true] at h
    have h2 := h k hk n hn
    simpa [hfold] using h2
  simp only [Doc.uniqueNames, Bool.and_eq_true, List.all_eq_true, Bool.not_eq_true'] at huniq
  simp only [Doc.noNumberForString, List.all_eq_true] at htyped
  unfold Codec.decode
  have hju : (jsonCodec equalFold).uniqueKeys = false := rfl
  simp only [hju, huniq.1, Bool.false_and, Bool.and_false, Bool.false_eq_true, if_false]
  apply foldl_congr_mem
  intro e he b
  unfold Codec.decodeEntry
  have hres : (jsonCodec equalFold).resolve (jsonCodec equalFold).topNames e.1 =
      yamlCodec.resolve yamlCodec.topNames e.1 := by
    rw [← topNames_eq equalFold]
    exact resolve_eq equalFold _ _
      (fun n hn => hkey e.1 (mem_keys_top d e he) n (topNames_subset equalFold n hn))
  rw [hres]
  cases hr : yamlCodec.resolve yamlCodec.topNames e.1 with
  | none => rfl
  | some t =>
    have ht : t = e.1 := yaml_resolve _ _ _ hr
    subst ht
    simp only [fieldAt_eq equalFold]
    have hu := huniq.2 e he
    have hty := htyped e he
    cases hnode : e.2 with
    | scalar v =>
      rw [hnode] at hty
      cases hf : yamlCodec.fieldAt [e.1] with
      | none => rfl
      | some f => exact assign_eq equalFold f v b (typed_of_fieldAt _ _ f hty hf)
    | mapping entries =>
      rw [hnode] at hty hu
      simp only [List.all_eq_true] at hty
      cases hf : yamlCodec.fieldAt [e.1] with
      | some f => rfl
      | none =>
        exact decodeSection_eq equalFold e.1 entries b
          (fun x hx n hn => hkey x.1 (mem_keys_nested d e entries x he hnode hx) n hn)
          (by simpa using hu) hty

/-- C14, as stated, fails, in three ways. A JSON file and a YAML file that both
give `env` the number 5: `parseJSON` aborts, `parseYAML` stores `"5"`. Two files
that both spell the key `ENV`: `parseJSON` stores the value, `parseYAML` ignores
it. Two files that both give `env` twice: `parseJSON` keeps the later value,
`parseYAML` aborts. -/
theorem parseJSON_parseYAML_differ :
    (demoJsonText envFiveJson = demoYamlText envFiveYaml ∧
      parseJSON demoLibWorld envFiveJson {} = .error "can not parse json service config file" ∧
      parseYAML demoLibWorld envFiveYaml {} = .ok ⟨{ Env := "5" }⟩) ∧
    (demoJsonText upperKeyJson = demoYamlText upperKeyYaml ∧
      parseJSON demoLibWorld upperKeyJson {} = .ok ⟨{ Env := "live" }⟩ ∧
      parseYAML demoLibWorld upperKeyYaml {} = .ok ⟨{ Env := "" }⟩) ∧
    (demoJsonText twiceJson = demoYamlText twiceYaml ∧
      parseJSON demoLibWorld twiceJson {} = .ok ⟨{ Env := "live" }⟩ ∧
      parseYAML demoLibWorld twiceYaml {} =
        .error "can not parse yaml-yml service config file") :=
  ⟨⟨rfl, rfl, rfl⟩, ⟨rfl, rfl, rfl⟩, ⟨rfl, rfl, rfl⟩⟩

/-- C14, amended: let a JSON input and a YAML input hold the same values (strings
or non-negative integers) under the same names, where every name that matches a
field name up to letter case is spelled exactly as that field name, no name is
repeated within a mapping, and no string field is given a number. Then
`parseJSON` on the one and `parseYAML` on the other, from the same starting
record, return the same record, and one aborts exactly when the other does. -/
theorem parseJSON_parseYAML_agree (equalFold : String → String → Bool)
    (jsonText yamlText : List UInt8 → Option Doc) (j y : List UInt8) (d : Doc)
    (s : ServiceConfig) (hj : jsonText j = some d) (hy : yamlText y = some d)
    (hnames : d.exactNames equalFold = true) (huniq : d.uniqueNames = true)
    (htyped : d.noNumberForString = true) :
    (∀ s', parseJSON (libWorld equalFold jsonText yamlText) j s = .ok s' ↔
        parseYAML (libWorld equalFold jsonText yamlText) y s = .ok s') ∧
      ((∃ e, parseJSON (libWorld equalFold jsonText yamlText) j s = .error e) ↔
        ∃ e, parseYAML (libWorld equalFold jsonText yamlText) y s = .error e) := by
  have hdec : (libWorld equalFold jsonText yamlText).jsonUnmarshal j s.data =
      (libWorld equalFold jsonText yamlText).yamlUnmarshal y s.data := by
    show (jsonCodec equalFold).decode (jsonText j) s.data = yamlCodec.decode (yamlText y) s.data
    rw [hj, hy]
    exact decode_eq equalFold d s.data hnames huniq htyped
  rw [parseJSON_eq, parseYAML_eq, hdec]
  cases hv : isValidPort
      ((libWorld equalFold jsonText yamlText).yamlUnmarshal y s.data).data.HTTP.Port <;>
    cases he : ((libWorld equalFold jsonText yamlText).yamlUnmarshal y s.data).err <;> simp

/-- C14, amended, on the contents standing for `test_configs/service.json` and
`test_configs/service.yml`, which both decode to the record that `TestParseJSON`
and `TestParseYAML` expect. -/
theorem parseJSON_parseYAML_agree_witness :
    parseJSON demoLibWorld serviceJson {} = .ok ⟨expectedService⟩ ∧
      parseYAML demoLibWorld serviceYml {} = .ok ⟨expectedService⟩ ∧
      ((∀ s', parseJSON demoLibWorld serviceJson {} = .ok s' ↔
          parseYAML demoLibWorld serviceYml {} = .ok s') ∧
        ((∃ e, parseJSON demoLibWorld serviceJson {} = .error e) ↔
          ∃ e, parseYAML demoLibWorld serviceYml {} = .error e)) :=
  ⟨rfl, rfl,
   parseJSON_parseYAML_agree equalFoldASCII demoJsonText demoYamlText serviceJson serviceYml
    serviceDoc {} rfl rfl (by decide) (by decide) (by decide)⟩

/-! ## C15: the accessors -/

/-- C15: each accessor returns the stored value, and a call of it leaves the
record as it was. -/
theorem accessors_return_stored (s : ServiceConfig) :
    (s.GetDataBaseConfig = s.data.Database ∧ s.GetAuthConfig = s.data.Auth ∧
      s.GetRedisConfig = s.data.Redis ∧ s.GetMailServiceConfig = s.data.MailService ∧
      s.GetServerPort = s.data.HTTP.Port ∧ s.GetEnv = s.data.Env ∧
      s.GetLoggerConfigPath = s.data.Logger.ConfigPath) ∧
    ((s.call ServiceConfig.GetDataBaseConfig).2 = s ∧
      (s.call ServiceConfig.GetAuthConfig).2 = s ∧
      (s.call ServiceConfig.GetRedisConfig).2 = s ∧
      (s.call ServiceConfig.GetMailServiceConfig).2 = s ∧
      (s.call ServiceConfig.GetServerPort).2 = s ∧
      (s.call ServiceConfig.GetEnv).2 = s ∧
      (s.call ServiceConfig.GetLoggerConfigPath).2 = s) :=
  ⟨⟨rfl, rfl, rfl, rfl, rfl, rfl, rfl⟩, ⟨rfl, rfl, rfl, rfl, rfl, rfl, rfl⟩⟩

end serviceconfig

namespace serviceconfig

/-! ## C16: `isValidPort` on arbitrary strings -/

/-- The strings accepted by `isValidPort`, by length. -/
theorem isValidPort_iff_shape (s : String) :
    isValidPort s = true ↔
      s = "" ∨ (isDecimal s = true ∧ 1 ≤ s.length ∧ s.length ≤ 4) ∨
        (isDecimal s = true ∧ s.length = 5 ∧ s.data.head? ≠ some '0' ∧
          decimalValue s ≤ 65535) := by
  rw [isValidPort_eq]
  obtain ⟨l⟩ := s
  simp only [isDecimal, decimalValue, digitsValue, String.length, String.ext_iff, String.data,
    show "".data = [] from rfl]
  rcases l with _ | ⟨a, _ | ⟨b, _ | ⟨c, _ | ⟨d, _ | ⟨e, _ | ⟨f, t⟩⟩⟩⟩⟩⟩
  · simp [run_nil]
  · rw [run_one]; simp [isDigit_iff]
  · rw [run_two]; simp [isDigit_iff]
  · rw [run_three]; simp [isDigit_iff]
  · rw [run_four]; simp [isDigit_iff]
  · rw [run_five]
    simp only [List.all_cons, List.all_nil, Bool.and_eq_true, isDigit_iff, Bool.and_true,
      List.length_cons, List.length_nil, List.head?_cons, ne_eq, Option.some.injEq,
      char_eq_iff, List.foldl_cons, List.foldl_nil, Nat.mul_zero, Nat.zero_add]
    have h0 : ('0' : Char).toNat = 48 := rfl
    rw [h0]
    constructor
    · intro h
      have hd : (48 ≤ a.toNat ∧ a.toNat ≤ 57) ∧ (48 ≤ b.toNat ∧ b.toNat ≤ 57) ∧
          (48 ≤ c.toNat ∧ c.toNat ≤ 57) ∧ (48 ≤ d.toNat ∧ d.toNat ≤ 57) ∧
          (48 ≤ e.toNat ∧ e.toNat ≤ 57) := by
        rcases h with h | h | h | h | h <;> omega
      have := (five_digits a.toNat b.toNat c.toNat d.toNat e.toNat hd.1 hd.2.1 hd.2.2.1
        hd.2.2.2.1 hd.2.2.2.2).mp h
      right; right
      exact ⟨hd, by simp, this.1, this.2⟩
    · rintro (h | h | ⟨hd, -, h1, h2⟩)
      · simp at h
      · simp at h
      · exact (five_digits a.toNat b.toNat c.toNat d.toNat e.toNat hd.1 hd.2.1 hd.2.2.1
          hd.2.2.2.1 hd.2.2.2.2).mpr ⟨h1, h2⟩
  · rw [run_long]
    simp

/-- A decimal string of at most four digits has a value below 10000. -/
theorem decimalValue_short (s : String) (h : isDecimal s = true) :
    (s.length ≤ 4 → decimalValue s ≤ 9999) := by
  obtain ⟨l⟩ := s
  simp only [isDecimal, decimalValue, digitsValue, String.length] at h ⊢
  rcases l with _ | ⟨a, _ | ⟨b, _ | ⟨c, _ | ⟨d, _ | ⟨e, t⟩⟩⟩⟩⟩ <;>
    simp only [List.all_cons, List.all_nil, Bool.and_eq_true, isDigit_iff] at h <;>
    simp <;> omega

/-- A decimal string of six digits or more that does not start with `0` has a
value of at least 100000. -/
theorem decimalValue_long (s : String) (h : isDecimal s = true) (hlen : 6 ≤ s.length)
    (hhead : s.data.head? ≠ some '0') : 100000 ≤ decimalValue s := by
  obtain ⟨l⟩ := s
  simp only [isDecimal, decimalValue, digitsValue, String.length] at h hlen hhead ⊢
  rcases l with _ | ⟨a, _ | ⟨b, _ | ⟨c, _ | ⟨d, _ | ⟨e, _ | ⟨f, t⟩⟩⟩⟩⟩⟩ <;>
    simp at hlen
  have hge := foldl_digits_ge t (10 * (10 * (10 * (10 * (10 * (10 * 0 + (a.toNat - 48)) +
    (b.toNat - 48)) + (c.toNat - 48)) + (d.toNat - 48)) + (e.toNat - 48)) + (f.toNat - 48))
  simp only [List.all_cons, Bool.and_eq_true, isDigit_iff] at h
  simp only [List.head?_cons, ne_eq, Option.some.injEq, char_eq_iff] at hhead
  have h0 : ('0' : Char).toNat = 48 := rfl
  rw [h0] at hhead
  simp only [List.foldl_cons]
  omega

/-- C16: `isValidPort s` is true exactly when `s` is empty, or is 1 to 4 ASCII
digits, or is 5 ASCII digits not starting with `0` whose value is at most 65535.
Hence an accepted string that is not empty is a decimal string of value at most
65535, and a decimal string without a leading zero (the string `0`, or one whose
first digit is not `0`) of value at most 65535 is accepted. -/
theorem isValidPort_spec :
    (∀ s : String, isValidPort s = true ↔
      s = "" ∨ (isDecimal s = true ∧ 1 ≤ s.length ∧ s.length ≤ 4) ∨
        (isDecimal s = true ∧ s.length = 5 ∧ s.data.head? ≠ some '0' ∧
          decimalValue s ≤ 65535)) ∧
    (∀ s : String, isValidPort s = true → s ≠ "" →
      isDecimal s = true ∧ decimalValue s ≤ 65535) ∧
    (∀ s : String, isDecimal s = true → s ≠ "" → (s = "0" ∨ s.data.head? ≠ some '0') →
      decimalValue s ≤ 65535 → isValidPort s = true) := by
  refine ⟨isValidPort_iff_shape, ?_, ?_⟩
  · intro s hv hne
    rcases (isValidPort_iff_shape s).mp hv with h | ⟨hd, -, h4⟩ | ⟨hd, -, -, hval⟩
    · exact absurd h hne
    · exact ⟨hd, by have := decimalValue_short s hd h4; omega⟩
    · exact ⟨hd, hval⟩
  · intro s hd hne hlead hval
    rw [isValidPort_iff_shape]
    have hpos : 1 ≤ s.length := by
      obtain ⟨l⟩ := s
      cases l with
      | nil => exact absurd rfl hne
      | cons a t => simp [String.length]
    by_cases h4 : s.length ≤ 4
    · exact Or.inr (Or.inl ⟨hd, hpos, h4⟩)
    · have hhead : s.data.head? ≠ some '0' := by
        rcases hlead with h | h
        · subst h; simp [String.length] at h4
        · exact h
      by_cases h5 : s.length = 5
      · exact Or.inr (Or.inr ⟨hd, h5, hhead, hval⟩)
      · have := decimalValue_long s hd (by omega) hhead
        omega

/-- C16 at the two ends of the five-digit range and at a padded port. -/
theorem isValidPort_spec_witness :
    isValidPort "65535" = true ∧ isValidPort "65536" = false ∧
      (isDecimal "0080" = true ∧ decimalValue "0080" ≤ 65535) :=
  ⟨isValidPort_spec.2.2 "65535" (by decide) (by decide) (Or.inr (by decide)) (by decide),
   by
    have h := (isValidPort_spec.1 "65536").not
    simpa using h.mpr (by decide),
   isValidPort_spec.2.1 "0080" (by decide) (by decide)⟩

end serviceconfig

namespace serviceconfig

/-! ## C17: what `parseEnv` leaves alone -/

/-- C17: `parseEnv` keeps every field whose override variable is unset or empty,
and every field that has no override variable; the latter are `Database.Name`,
`HTTP.BaseURL`, `HTTP.Host`, `Auth.CleanUpSessionMillis`, `MailService.ApiKey` and
`Logger.ConfigPath`. -/
theorem parseEnv_frame (w : World) (s : ServiceConfig) :
    (∀ (f : Field) (name : String), f.envVar = some name → Getenv w name = "" →
      f.get (parseEnv w s).data = f.get s.data) ∧
    (∀ f : Field, f.envVar = none → f.get (parseEnv w s).data = f.get s.data) ∧
    (∀ f : Field, f.envVar = none ↔
      f ∈ [Field.DatabaseName, .HTTPBaseURL, .HTTPHost, .AuthCleanUpSessionMillis,
        .MailServiceApiKey, .LoggerConfigPath]) := by
  refine ⟨?_, ?_, ?_⟩
  · intro f name hf hv
    rw [parseEnv_get]
    apply overlay_of_envUnset
    intro name' hf'
    rw [hf] at hf'
    cases hf'
    exact hv
  · intro f hf
    rw [parseEnv_get]
    apply overlay_of_envUnset
    intro name' hf'
    rw [hf] at hf'
    cases hf'
  · intro f
    cases f <;> simp [Field.envVar]

/-- C17 with only PORT set: the HTTP port changes, while the database port
(variable unset) and the database name (no variable) stay. -/
theorem parseEnv_frame_witness :
    (parseEnv (demoWorld [("PORT", "8080")] []) ⟨expectedService⟩).data.HTTP.Port = "8080" ∧
      Field.get .DatabasePort (parseEnv (demoWorld [("PORT", "8080")] [])
        ⟨expectedService⟩).data = Field.get .DatabasePort expectedService ∧
      Field.get .DatabaseName (parseEnv (demoWorld [("PORT", "8080")] [])
        ⟨expectedService⟩).data = Field.get .DatabaseName expectedService :=
  ⟨rfl,
   (parseEnv_frame (demoWorld [("PORT", "8080")] []) ⟨expectedService⟩).1
      .DatabasePort "DB_PORT" rfl rfl,
   (parseEnv_frame (demoWorld [("PORT", "8080")] []) ⟨expectedService⟩).2.1
      .DatabaseName rfl⟩

/-! ## C18: no validation after the overlay -/

/-- The empty path selects no decoder, so a path that selects one is not empty. -/
theorem ne_empty_of_decoderOf (w : World) (p : String) (dec : Unmarshal)
    (hd : decoderOf w p = some dec) : p ≠ "" := by
  intro hp
  subst hp
  have hnone : decoderOf w "" = none := rfl
  rw [hnone] at hd
  cases hd

/-- A file that is read but whose suffix selects no decoder is left unparsed. -/
theorem parseServiceConfig_no_decoder (w : World) (p : String) (s : ServiceConfig)
    (data : List UInt8) (hr : w.readFile p = some data) (hd : decoderOf w p = none) :
    parseServiceConfig w p s = .ok s := by
  obtain ⟨front, last, hgo, -⟩ := splitOnP_go_last (fun c => c == '.') p.data []
  have hsuf : getSuffix p = .ok ⟨last⟩ := getSuffix_eq p front last hgo
  unfold parseServiceConfig
  unfold decoderOf at hd
  rw [hr, hsuf]
  rw [hsuf] at hd
  simp only at hd ⊢
  by_cases hj : (⟨last⟩ : String) = "json"
  · simp [hj] at hd
  · by_cases hy : (⟨last⟩ : String) = "yaml" ∨ (⟨last⟩ : String) = "yml"
    · simp [hj, hy] at hd
    · simp only [hj, hy, if_false]

/-- The local-override step completes when the local-override file passes
validation. -/
theorem override_step_ok (w : World) (s1 : ServiceConfig) (h : overrideFilePasses w s1) :
    ∃ s2, (if getLocalhostConfigPath w ≠ "" then
        parseServiceConfig w (getLocalhostConfigPath w) s1 else .ok s1) = .ok s2 := by
  by_cases hq : getLocalhostConfigPath w = ""
  · exact ⟨s1, by simp [hq]⟩
  · simp only [ne_eq, hq, not_false_eq_true, if_true]
    rcases h with h | h | h | ⟨dq, decQ, hr, hd, herr, hv⟩
    · exact absurd h hq
    · refine ⟨s1, ?_⟩
      unfold parseServiceConfig
      rw [h]
    · cases hr : w.readFile (getLocalhostConfigPath w) with
      | none =>
        refine ⟨s1, ?_⟩
        unfold parseServiceConfig
        rw [hr]
      | some data => exact ⟨s1, parseServiceConfig_no_decoder w _ s1 data hr h⟩
    · exact ⟨_, (parseServiceConfig_ok_iff w _ s1 _ dq decQ hr hd).mpr ⟨hv, herr, rfl⟩⟩

/-- C18: `parseEnv` is a total function (it cannot abort) and stores PORT, DB_PORT
and REDIS_PORT as they are whenever they are not empty, valid port or not. So
when the base file is read and decoded without error to a valid HTTP port, the
local-override file (if any) passes validation as well, and `PORT=99999`, the
resolution completes, and `GetServerPort` is `99999`, which is not a valid port. -/
theorem parseEnv_stores_ports_unchecked (w : World) (s : ServiceConfig) :
    (Getenv w envPort ≠ "" → (parseEnv w s).data.HTTP.Port = Getenv w envPort) ∧
    (Getenv w envDBPort ≠ "" → (parseEnv w s).data.Database.Port = Getenv w envDBPort) ∧
    (Getenv w envRedisPort ≠ "" → (parseEnv w s).data.Redis.Port = Getenv w envRedisPort) ∧
    (∀ (dp : List UInt8) (decP : Unmarshal),
      w.readFile (getServiceConfigPath w) = some dp →
      decoderOf w (getServiceConfigPath w) = some decP →
      (decP dp s.data).err = false →
      isValidPort (decP dp s.data).data.HTTP.Port = true →
      overrideFilePasses w ⟨(decP dp s.data).data⟩ →
      Getenv w envPort = "99999" →
      ∃ s', initServiceConfig w s = .ok s' ∧ s'.GetServerPort = "99999" ∧
        isValidPort s'.GetServerPort = false) := by
  have hp := parseEnv_get w s .HTTPPort
  have hd := parseEnv_get w s .DatabasePort
  have hr := parseEnv_get w s .RedisPort
  simp only [Field.get, Field.overlay, Field.envVar, Value.str.injEq] at hp hd hr
  refine ⟨?_, ?_, ?_, ?_⟩
  · intro h
    have := hp
    simp only [h, ne_eq, not_false_eq_true, if_true, Value.str.injEq] at this
    exact this
  · intro h
    have := hd
    simp only [h, ne_eq, not_false_eq_true, if_true, Value.str.injEq] at this
    exact this
  · intro h
    have := hr
    simp only [h, ne_eq, not_false_eq_true, if_true, Value.str.injEq] at this
    exact this
  · intro dp decP hread hdec herr hvalid hlocal hport
    have hpath : getServiceConfigPath w ≠ "" := ne_empty_of_decoderOf w _ decP hdec
    have hbase : parseServiceConfig w (getServiceConfigPath w) s =
        .ok ⟨(decP dp s.data).data⟩ :=
      (parseServiceConfig_ok_iff w _ s _ dp decP hread hdec).mpr ⟨hvalid, herr, rfl⟩
    obtain ⟨s2, hstep⟩ := override_step_ok w ⟨(decP dp s.data).data⟩ hlocal
    have hinit : initServiceConfig w s = .ok (parseEnv w s2) := by
      unfold initServiceConfig
      simp only [hpath, if_false]
      rw [hbase]
      simp only
      rw [hstep]
    have hp2 := parseEnv_get w s2 .HTTPPort
    simp only [Field.get, Field.overlay, Field.envVar, hport, ne_eq, Value.str.injEq] at hp2
    have hne : ¬ ("99999" : String) = "" := by decide
    simp only [hne, not_false_eq_true, if_true, Value.str.injEq] at hp2
    refine ⟨parseEnv w s2, hinit, ?_, ?_⟩
    · unfold ServiceConfig.GetServerPort
      exact hp2
    · unfold ServiceConfig.GetServerPort
      rw [hp2]
      decide

/-- C18 with the base file of the test suite, which passes validation, no
local-override file, and `PORT=99999`. -/
theorem parseEnv_stores_ports_unchecked_witness :
    ∃ s', init (demoWorld [("PORT", "99999")] [("etc/service.yml", serviceYml)]) = .ok s' ∧
      s'.GetServerPort = "99999" ∧ isValidPort s'.GetServerPort = false :=
  (parseEnv_stores_ports_unchecked
      (demoWorld [("PORT", "99999")] [("etc/service.yml", serviceYml)]) {}).2.2.2
    serviceYml demoUnmarshal rfl rfl rfl (by decide) (Or.inl rfl) rfl

end serviceconfig

namespace serviceconfig

/-! ## C19: the numeric overrides wrap to 32 bits -/

/-- C19: when ACCESS_TOKEN_EXPIRATION_MILLIS (resp. REFRESH_TOKEN_EXPIRATION_MILLIS)
parses to an integer `n` other than 0, `parseEnv` sets the field to `n` modulo
2^32: to `n` itself when `1 ≤ n ≤ 4294967295`, to `n + 2^32` when
`-2^32 ≤ n < 0`, and to 0 when `n` is a multiple of 2^32. -/
theorem parseEnv_numeric_override (w : World) (s : ServiceConfig) (f : Field)
    (name v : String) (n : Int) (hnum : f.isNumericOverride = true)
    (hf : f.envVar = some name) (hv : Getenv w name = v) (hparse : Atoi v = (n, false))
    (hn : n ≠ 0) :
    f.get (parseEnv w s).data = .num (n % 2 ^ 32).toNat ∧
      (1 ≤ n → n ≤ 4294967295 → (n % 2 ^ 32).toNat = n.toNat) ∧
      (n < 0 → -4294967296 ≤ n → ((n % 2 ^ 32).toNat : Int) = n + 4294967296) ∧
      ((2 ^ 32 : Int) ∣ n → (n % 2 ^ 32).toNat = 0) := by
  have hne : v ≠ "" := by
    intro h
    subst h
    have h0 : Atoi "" = (0, true) := by decide
    rw [h0] at hparse
    simp at hparse
  have h1 : (Atoi v).1 = n := by rw [hparse]
  refine ⟨?_, ?_, ?_, ?_⟩
  · rw [parseEnv_get]
    subst hv
    cases f <;> simp [Field.isNumericOverride] at hnum <;>
      simp only [Field.envVar, Option.some.injEq] at hf <;> subst hf <;>
      simp [Field.overlay, h1, hn, hne, toUint32]
  · intro h1 h2
    rw [Int.emod_eq_of_lt (by omega) (by omega)]
  · intro h1 h2
    have : n % 2 ^ 32 = n + 4294967296 := by omega
    rw [this]
    omega
  · intro hdvd
    rw [Int.emod_eq_zero_of_dvd hdvd]
    rfl

/-- C19 at `-1`, which gives 4294967295, and at `4294967296`, which gives 0. -/
theorem parseEnv_numeric_override_witness :
    Field.get .AuthAccessTokenExpirationMillis
        (parseEnv (demoWorld [("ACCESS_TOKEN_EXPIRATION_MILLIS", "-1")] [])
          ⟨expectedService⟩).data = .num 4294967295 ∧
      Field.get .AuthRefreshTokenExpirationMillis
        (parseEnv (demoWorld [("REFRESH_TOKEN_EXPIRATION_MILLIS", "4294967296")] [])
          ⟨expectedService⟩).data = .num 0 :=
  ⟨(parseEnv_numeric_override (demoWorld [("ACCESS_TOKEN_EXPIRATION_MILLIS", "-1")] [])
      ⟨expectedService⟩ .AuthAccessTokenExpirationMillis "ACCESS_TOKEN_EXPIRATION_MILLIS"
      "-1" (-1) rfl rfl rfl (by decide) (by decide)).1.trans
      (congrArg Value.num (by decide)),
   (parseEnv_numeric_override (demoWorld [("REFRESH_TOKEN_EXPIRATION_MILLIS", "4294967296")] [])
      ⟨expectedService⟩ .AuthRefreshTokenExpirationMillis "REFRESH_TOKEN_EXPIRATION_MILLIS"
      "4294967296" 4294967296 rfl rfl rfl (by decide) (by decide)).1.trans
      (congrArg Value.num (by decide))⟩

/-! ## C20: a base file that cannot be read -/

/-- C20: a file that cannot be read leaves the record unchanged and does not abort;
so when the base path is not empty but cannot be read, `initServiceConfig` is the
local-override step on the record it was given, followed by `parseEnv`. -/
theorem initServiceConfig_unreadable_base (w : World) (s : ServiceConfig)
    (hp : getServiceConfigPath w ≠ "") (hr : w.readFile (getServiceConfigPath w) = none) :
    (∀ (p : String) (r : ServiceConfig), w.readFile p = none →
      parseServiceConfig w p r = .ok r) ∧
    initServiceConfig w s =
      Except.map (parseEnv w)
        (if getLocalhostConfigPath w ≠ "" then parseServiceConfig w (getLocalhostConfigPath w) s
         else .ok s) := by
  have hgen : ∀ (p : String) (r : ServiceConfig), w.readFile p = none →
      parseServiceConfig w p r = .ok r := by
    intro p r h
    unfold parseServiceConfig
    rw [h]
  refine ⟨hgen, ?_⟩
  unfold initServiceConfig
  simp only [hp, if_false]
  rw [hgen _ s hr]
  simp only
  cases (if getLocalhostConfigPath w ≠ "" then
    parseServiceConfig w (getLocalhostConfigPath w) s else Except.ok s) <;> rfl

/-- C20 with `service_config_path` naming a file that does not exist, a
local-override file present and `PORT=8080`. -/
theorem initServiceConfig_unreadable_base_witness :
    initServiceConfig
        (demoWorld
          [("service_config_path", "./missing.yml"),
           ("localhost_service_config_path", "./test_configs/localhost_service.yml"),
           ("PORT", "8080")]
          [("./test_configs/localhost_service.yml", localhostServiceYml)]) {} =
      .ok ⟨{ Database := { HostAddress := "localhost", Name := "localhost_fitx",
                           User := "localhost_fitx" },
             HTTP := { Port := "8080" },
             Auth := { PrivateKey := "localhost_private_key",
                       PublicKey := "localhost_public_key" },
             MailService := { ApiKey := "localhost_api_key" },
             Logger := { ConfigPath := "localhost_config_path" } }⟩ :=
  (initServiceConfig_unreadable_base
    (demoWorld
      [("service_config_path", "./missing.yml"),
       ("localhost_service_config_path", "./test_configs/localhost_service.yml"),
       ("PORT", "8080")]
      [("./test_configs/localhost_service.yml", localhostServiceYml)]) {}
    (by decide) rfl).2

end serviceconfig
